import Mathlib

/-!
Shallow embedding of the Trade-Histories repository:
`app/export_trade_histories.py` (timestamp codec, query builder, raw-query
guard, record mapper) and `app/Filtertrade.py` (CSV row filter).

Modelling conventions:
- a Python `str` is a `List Char` (a Python string is a sequence of code
  points); ASCII suffices for every value the code manipulates;
- Python `int` is `Int` (or `Nat` where the source value is provably
  nonnegative, e.g. the encoded timestamp produced from digit strings);
- Python `float` values that merely pass through the code (prices, rates)
  are modelled as exact rationals `Rat`; no claim depends on float rounding
  of those fields.  The one place where float arithmetic matters —
  `round(microsecond / 1000.0)` in `datetime_to_bigint_hr` — is modelled
  exactly, see `pyRoundMs`;
- fallible Python code (raising exceptions) returns `Except`;
- `while` loops are modelled by fuelled recursion with a fuel that provably
  dominates the iteration count (each loop strictly shrinks its string).
-/

namespace TradeHist

/-! ## Python string primitives -/

/-- Default whitespace characters of Python `str.strip` (ASCII subset). -/
def isPySpace (c : Char) : Bool :=
  c = ' ' || c = '\t' || c = '\n' || c = '\r' || c = '\x0b' || c = '\x0c'

/-- Model of Python `str.lstrip()`. -/
def lstripWS (l : List Char) : List Char := l.dropWhile isPySpace

/-- Model of Python `str.rstrip()`. -/
def rstripWS : List Char → List Char
  | [] => []
  | c :: t =>
    match rstripWS t with
    | [] => if isPySpace c then [] else [c]
    | r => c :: r

/-- Model of Python `str.strip()`. -/
def pyStrip (l : List Char) : List Char := rstripWS (lstripWS l)

/-- Numeric value of a decimal digit string: `int(s)` for an all-digit `s`. -/
def digitsToNat (l : List Char) : Nat := l.foldl (fun a c => a * 10 + (c.toNat - 48)) 0

/-- The `k` zero-padded decimal digits of `n % 10^k`, most significant first. -/
def padN : Nat → Nat → List Char
  | 0, _ => []
  | k + 1, n => padN k (n / 10) ++ [Nat.digitChar (n % 10)]

/-- Fuelled digit extraction, accumulator style.  With fuel at least the
number of digits of `n` minus one this computes the decimal digits of `n`. -/
def natDigitsFuel : Nat → Nat → List Char → List Char
  | 0, n, acc => Nat.digitChar (n % 10) :: acc
  | fuel + 1, n, acc =>
    if n < 10 then Nat.digitChar n :: acc
    else natDigitsFuel fuel (n / 10) (Nat.digitChar (n % 10) :: acc)

/-- Model of Python `str(n)` for a nonnegative integer `n`: its decimal
digits, no leading zeros (`"0"` for zero).  Fuel `n` dominates the digit
count of `n`. -/
def natDigits (n : Nat) : List Char := natDigitsFuel n n []

/-! ## Timestamp codec (`export_trade_histories.py`, lines 33-73) -/

/-- Calendar timestamp in UTC: the observable state of a Python
`datetime` that the codec produces (always `tzinfo=timezone.utc`). -/
structure DateTime where
  year : Nat
  month : Nat
  day : Nat
  hour : Nat
  minute : Nat
  second : Nat
  microsecond : Nat
deriving DecidableEq, Repr

/-- Gregorian leap year rule, as implemented by Python `datetime`. -/
def isLeapYear (y : Nat) : Bool :=
  y % 4 = 0 && (y % 100 ≠ 0 || y % 400 = 0)

/-- Days in a month, as validated by the Python `datetime` constructor. -/
def daysInMonth (y m : Nat) : Nat :=
  if m = 1 then 31
  else if m = 2 then (if isLeapYear y then 29 else 28)
  else if m = 3 then 31
  else if m = 4 then 30
  else if m = 5 then 31
  else if m = 6 then 30
  else if m = 7 then 31
  else if m = 8 then 31
  else if m = 9 then 30
  else if m = 10 then 31
  else if m = 11 then 30
  else 31

/-- Field ranges accepted by the Python `datetime` constructor
(`MINYEAR = 1`, `MAXYEAR = 9999`). -/
def ValidDT (d : DateTime) : Bool :=
  1 ≤ d.year && d.year ≤ 9999 && 1 ≤ d.month && d.month ≤ 12 &&
  1 ≤ d.day && d.day ≤ daysInMonth d.year d.month &&
  d.hour ≤ 23 && d.minute ≤ 59 && d.second ≤ 59 && d.microsecond ≤ 999999

/-- Source `_is_epoch_sentinel` (lines 33-37): `str(val).strip()` is `"0"`
or `"19700101000000000"` (`None` also counts as the sentinel). -/
def _is_epoch_sentinel : Option (List Char) → Bool
  | none => true
  | some val => pyStrip val == "0".toList || pyStrip val == "19700101000000000".toList

/-- Model of `datetime.strptime(s, "%Y%m%d%H%M%S")` on an all-digit string
of length 14: CPython's `_strptime` regex takes exactly 4 digits for `%Y`
and exactly 2 for each of `%m %d %H %M %S` here (any 1-digit alternative
leaves unconverted data), and the `datetime` constructor enforces the field
ranges (month 1-12, day 1-daysInMonth, hour 0-23, minute 0-59, second 0-59,
year at least `MINYEAR = 1`). -/
def strptime14 (s : List Char) : Except String DateTime :=
  let y := digitsToNat (s.take 4)
  let mo := digitsToNat ((s.drop 4).take 2)
  let d := digitsToNat ((s.drop 6).take 2)
  let h := digitsToNat ((s.drop 8).take 2)
  let mi := digitsToNat ((s.drop 10).take 2)
  let se := digitsToNat ((s.drop 12).take 2)
  if 1 ≤ y ∧ (1 ≤ mo ∧ mo ≤ 12) ∧ (1 ≤ d ∧ d ≤ daysInMonth y mo) ∧
     h ≤ 23 ∧ mi ≤ 59 ∧ se ≤ 59 then
    .ok ⟨y, mo, d, h, mi, se, 0⟩
  else
    .error ("time data does not match format %Y%m%d%H%M%S: " ++ s.asString)

/-- Source `bigint_hr_to_datetime` (lines 40-59).  The input is
`Optional[int | str]`; either is passed through `str(value)`, so the model
takes the resulting character sequence.  Returns `.ok none` for the null /
sentinel cases, `.ok (some dt)` for decoded instants, `.error` for the
`ValueError`s the source raises. -/
def bigint_hr_to_datetime : Option (List Char) → Except String (Option DateTime)
  | none => .ok none
  | some value =>
    let s := pyStrip value
    if s.isEmpty || _is_epoch_sentinel (some s) then .ok none
    else if !(s.all Char.isDigit) then
      .error ("Invalid BigIntHumanReadable value: " ++ s.asString)
    else if s.length = 14 then
      (strptime14 s).map (fun dt => some dt)
    else if s.length = 17 then
      (strptime14 (s.take 14)).map
        (fun dt => some { dt with microsecond := digitsToNat (s.drop 14) * 1000 })
    else
      .error ("Unsupported length for BigIntHumanReadable (expect 14 or 17): " ++ s.asString)

/-- Model of the source line `ms = int(round(aware.microsecond / 1000.0))`
(line 69).  Python `round` on a float rounds half to even.  The model is
exact for every `micro` in `[0, 999999]`: when `micro % 1000 ≠ 500` the
real number `micro / 1000` is at distance at least `1/1000` from the
nearest half-integer, far above the double-rounding error of the division
(below `2^-43` for values under `1024`), so the rounding direction is that
of the exact quotient; when `micro % 1000 = 500` the exact quotient
`q + 1/2` (with `q ≤ 999`) is itself a double, the division returns it
exactly, and `round` applies its half-to-even rule. -/
def pyRoundMs (micro : Nat) : Nat :=
  let q := micro / 1000
  let r := micro % 1000
  if r < 500 then q
  else if 500 < r then q + 1
  else if q % 2 = 0 then q else q + 1

/-- The value of the millisecond field the source finally emits:
`pyRoundMs` with the `ms == 1000` carry suppressed to `0` (lines 70-72). -/
def msFinal (micro : Nat) : Nat :=
  let m := pyRoundMs micro
  if m = 1000 then 0 else m

/-- Model of `aware.strftime("%Y%m%d%H%M%S")`: the six fields zero-padded
to widths 4,2,2,2,2,2.  (For years below 1000 glibc emits the year without
padding; the final `int(...)` of the source erases that difference, see
`encodeDT`.) -/
def strftime14 (d : DateTime) : List Char :=
  padN 4 d.year ++ padN 2 d.month ++ padN 2 d.day ++
  padN 2 d.hour ++ padN 2 d.minute ++ padN 2 d.second

/-- Source `datetime_to_bigint_hr` body for a non-null, already-UTC
datetime (lines 64-73): the returned Python `int` is
`int(strftime("%Y%m%d%H%M%S") + f-string-pad3(ms))`; leading zeros (or
glibc's unpadded short years) do not affect the integer value, so the
model applies `digitsToNat` to the padded concatenation. -/
def encodeDT (d0 : DateTime) : Nat :=
  let ms0 := pyRoundMs d0.microsecond
  let d1 := if ms0 = 1000 then { d0 with microsecond := 0 } else d0
  let ms := if ms0 = 1000 then 0 else ms0
  digitsToNat (strftime14 d1 ++ padN 3 ms)

/-- Source `datetime_to_bigint_hr` (lines 62-73): `None` maps to `None`.
Timezone conversion is a no-op for the UTC instants modelled here. -/
def datetime_to_bigint_hr (dt : Option DateTime) : Option Nat :=
  dt.map encodeDT

/-- The Unix epoch instant `1970-01-01T00:00:00.000Z`. -/
def epochDT : DateTime := ⟨1970, 1, 1, 0, 0, 0, 0⟩

/-- The 17-digit canonical form of an accepted digit string: itself when it
has 17 digits, otherwise (length 14) the string with `"000"` appended. -/
def canonical17 (v : List Char) : List Char :=
  if v.length = 17 then v else v ++ "000".toList

/-- Half-up rounding of `micro` microseconds to milliseconds, as the words
of the spec describe the millisecond computation.  Used to compare the
spec's rounding rule with the source's `pyRoundMs`. -/
def roundHalfUp (micro : Nat) : Nat := (micro + 500) / 1000

/-- Linearised digit value of the 14 date/time digits of a `DateTime`. -/
def dateNum (d : DateTime) : Nat :=
  d.year * 10000000000 + d.month * 100000000 + d.day * 1000000 +
  d.hour * 10000 + d.minute * 100 + d.second

/-! ## Raw-query guard (`export_trade_histories.py`, lines 283-304) -/

/-- Model of Python `s.find(pat)`: index of the first (possibly
overlapping) occurrence of `pat`, `none` when absent (Python returns -1). -/
def findSub (pat : List Char) : List Char → Option Nat
  | [] => if pat.isPrefixOf ([] : List Char) then some 0 else none
  | c :: t => if pat.isPrefixOf (c :: t) then some 0 else (findSub pat t).map (· + 1)

/-- First `while` loop of `_strip_leading_comments` (lines 286-290):
while the text starts with `/*`, cut through the next `*/` and `lstrip`;
an unterminated block comment breaks out, leaving the text as is.  Each
iteration removes at least two characters, so fuel `s.length` dominates
the iteration count. -/
def stripBlocksFuel : Nat → List Char → List Char
  | 0, s => s
  | fuel + 1, s =>
    if ['/', '*'].isPrefixOf s then
      match findSub ['*', '/'] s with
      | none => s
      | some e => stripBlocksFuel fuel (lstripWS (s.drop (e + 2)))
    else s

/-- Second `while` loop of `_strip_leading_comments` (lines 291-293):
while the text starts with `--`, cut through the next newline and `lstrip`
(no newline: the text becomes empty).  Each iteration removes at least one
character, so fuel `s.length` dominates the iteration count. -/
def stripLinesFuel : Nat → List Char → List Char
  | 0, s => s
  | fuel + 1, s =>
    if ['-', '-'].isPrefixOf s then
      match findSub ['\n'] s with
      | none => []
      | some nl => stripLinesFuel fuel (lstripWS (s.drop (nl + 1)))
    else s

/-- Source `_strip_leading_comments` (lines 283-294): `lstrip`, then the
block-comment loop runs to completion, then the line-comment loop. -/
def _strip_leading_comments (sql : List Char) : List Char :=
  let s0 := lstripWS sql
  let s1 := stripBlocksFuel s0.length s0
  stripLinesFuel s1.length s1

/-- Source `is_select_only` (lines 297-299): after comment stripping, the
first six characters, lowercased, must equal `select`. -/
def is_select_only (sql : List Char) : Bool :=
  ((_strip_leading_comments sql).take 6).map Char.toLower == "select".toList

/-- Modelled from the spec (claim C4 reading): strips leading block
comments and leading line comments, repeatedly, whichever kind currently
stands at the start of the text, until neither does.  This is the
interleaved reading of "strips leading block comments and leading line
comments, repeatedly"; it is compared against the source's two-phase
`_strip_leading_comments`. -/
def stripCommentsSpecFuel : Nat → List Char → List Char
  | 0, s => s
  | fuel + 1, s =>
    if ['/', '*'].isPrefixOf s then
      match findSub ['*', '/'] s with
      | none => s
      | some e => stripCommentsSpecFuel fuel (lstripWS (s.drop (e + 2)))
    else if ['-', '-'].isPrefixOf s then
      match findSub ['\n'] s with
      | none => []
      | some nl => stripCommentsSpecFuel fuel (lstripWS (s.drop (nl + 1)))
    else s

/-- Modelled from the spec: comment stripping per the interleaved reading
of claim C4. -/
def strip_leading_comments_spec (sql : List Char) : List Char :=
  let s0 := lstripWS sql
  stripCommentsSpecFuel s0.length s0

/-- Modelled from the spec: the guard acceptance predicate of claim C4,
using the interleaved comment stripping. -/
def is_select_only_spec (sql : List Char) : Bool :=
  ((strip_leading_comments_spec sql).take 6).map Char.toLower == "select".toList

/-! ## Query builder (`export_trade_histories.py`, lines 123-214) -/

/-- A value bound as a query parameter. -/
inductive Param where
  | pint : Int → Param
  | pstr : String → Param
deriving DecidableEq, Repr

/-- Source dataclass `TradeQuery` (lines 123-136), with its defaults. -/
structure TradeQuery where
  trade_account_id : Option Int := none
  ticket : Option Int := none
  symbol : Option String := none
  opened_from : Option DateTime := none
  opened_to : Option DateTime := none
  closed_from : Option DateTime := none
  closed_to : Option DateTime := none
  comment_like : Option String := none
  limit : Int := 100
  offset : Int := 0
  order_by : String := "OpenTime"
  order_dir : String := "ASC"
deriving DecidableEq, Repr

/-- The ordering-column allow-list of `TradeQuery.validate`. -/
def allowedCols : List String := ["ID", "OpenTime", "CloseTime", "TimeStamp", "Ticket"]

/-- Source `TradeQuery.validate` (lines 138-147). -/
def TradeQuery.validate (q : TradeQuery) : Except String Unit :=
  if !(allowedCols.contains q.order_by) then
    .error ("order_by must be one of the allowed columns")
  else if !(q.order_dir = "ASC" || q.order_dir = "DESC") then
    .error ("order_dir must be ASC or DESC")
  else if q.limit ≤ 0 || 10000 < q.limit then
    .error ("limit must be between 1 and 10000")
  else if q.offset < 0 then
    .error ("offset must be >= 0")
  else
    .ok ()

/-- The `clauses` list built by `build_where_and_params` (lines 187-213):
one fragment per populated filter field, in source order.  `symbol` and
`comment_like` are tested for truthiness (`if q.symbol:`), the other
fields against `None`. -/
def whereClauses (q : TradeQuery) : List String :=
  (match q.trade_account_id with | some _ => ["TradeAccountID = %s"] | none => []) ++
  (match q.ticket with | some _ => ["Ticket = %s"] | none => []) ++
  (match q.symbol with
   | some s => if s = "" then [] else ["SymbolName = %s"]
   | none => []) ++
  (match q.opened_from with | some _ => ["OpenTime >= %s"] | none => []) ++
  (match q.opened_to with | some _ => ["OpenTime <= %s"] | none => []) ++
  (match q.closed_from with | some _ => ["CloseTime >= %s"] | none => []) ++
  (match q.closed_to with | some _ => ["CloseTime <= %s"] | none => []) ++
  (match q.comment_like with
   | some c => if c = "" then [] else ["Comment LIKE %s"]
   | none => [])

/-- The `params` list built by `build_where_and_params`, in source order;
the four temporal bounds go through `datetime_to_bigint_hr` (the encoder),
the comment substring is wrapped with `%` wildcards. -/
def whereParams (q : TradeQuery) : List Param :=
  (match q.trade_account_id with | some a => [Param.pint a] | none => []) ++
  (match q.ticket with | some t => [Param.pint t] | none => []) ++
  (match q.symbol with
   | some s => if s = "" then [] else [Param.pstr s]
   | none => []) ++
  (match q.opened_from with | some d => [Param.pint (encodeDT d)] | none => []) ++
  (match q.opened_to with | some d => [Param.pint (encodeDT d)] | none => []) ++
  (match q.closed_from with | some d => [Param.pint (encodeDT d)] | none => []) ++
  (match q.closed_to with | some d => [Param.pint (encodeDT d)] | none => []) ++
  (match q.comment_like with
   | some c => if c = "" then [] else [Param.pstr ("%" ++ c ++ "%")]
   | none => [])

/-- Source `build_where_and_params` (lines 185-214): validates first, then
returns the WHERE text (empty when no clause) and the parameter list. -/
def build_where_and_params (q : TradeQuery) : Except String (String × List Param) :=
  match q.validate with
  | .error e => .error e
  | .ok _ =>
    let clauses := whereClauses q
    let w := if clauses = [] then "" else " WHERE " ++ String.intercalate " AND " clauses
    .ok (w, whereParams q)

/-- Modelled from the spec (claim C7): the ordered predicate list, one
conjunct per populated optional filter field — account-id equality, ticket
equality, symbol equality, open-time lower/upper bound, close-time
lower/upper bound, comment substring with wildcards on both sides; the
temporal bounds pass through the timestamp encoder.  Populated means
non-null, and non-empty for the two string fields (see claim C10). -/
def specFilterPredicates (q : TradeQuery) : List (String × Param) :=
  (match q.trade_account_id with | some a => [("TradeAccountID = %s", Param.pint a)] | none => []) ++
  (match q.ticket with | some t => [("Ticket = %s", Param.pint t)] | none => []) ++
  (match q.symbol with
   | some s => if s = "" then [] else [("SymbolName = %s", Param.pstr s)]
   | none => []) ++
  (match q.opened_from with | some d => [("OpenTime >= %s", Param.pint (encodeDT d))] | none => []) ++
  (match q.opened_to with | some d => [("OpenTime <= %s", Param.pint (encodeDT d))] | none => []) ++
  (match q.closed_from with | some d => [("CloseTime >= %s", Param.pint (encodeDT d))] | none => []) ++
  (match q.closed_to with | some d => [("CloseTime <= %s", Param.pint (encodeDT d))] | none => []) ++
  (match q.comment_like with
   | some c => if c = "" then [] else [("Comment LIKE %s", Param.pstr ("%" ++ c ++ "%"))]
   | none => [])

/-! ## Record mapper and raw-SQL fetch (`export_trade_histories.py`, lines 154-320) -/

/-- Source `COLUMNS` tuple (lines 154-180): the 25 canonical columns. -/
def COLUMNS : List String :=
  ["ID", "TradeAccountID", "Ticket", "SymbolName", "Digits", "Type", "Quantity",
   "State", "OpenTime", "OpenPrice", "OpenRate", "CloseTime", "ClosePrice",
   "CloseRate", "StopLoss", "TakeProfit", "Expiration", "Commission",
   "CommissionAgent", "Swap", "Profit", "Tax", "Magic", "Comment", "TimeStamp"]

/-- Lexicographic code-point comparison of character lists: the order Python
`sorted` uses on strings. -/
def leChars : List Char → List Char → Bool
  | [], _ => true
  | _ :: _, [] => false
  | a :: as, b :: bs => if a < b then true else if b < a then false else leChars as bs

/-- Insertion into a lexicographically sorted list of strings. -/
def insertSorted (x : String) : List String → List String
  | [] => [x]
  | y :: t => if leChars x.toList y.toList then x :: y :: t else y :: insertSorted x t

/-- Model of Python `sorted` on a list of strings (insertion sort). -/
def sortStrings (l : List String) : List String := l.foldr insertSorted []

/-- A row as returned by the dictionary cursor: column name to cell, a cell
being `none` (SQL NULL) or a scalar rendered as a string. -/
abbrev SqlRow := List (String × Option String)

/-- Model of `row.get(k)`: `None` both when the key is absent and when the
cell is NULL. -/
def rowGet (row : SqlRow) (k : String) : Option String :=
  (row.lookup k).bind id

/-- Model of Python `int(s)` on a string: optional surrounding whitespace,
optional sign, at least one digit. -/
def pyParseInt (s : String) : Except String Int :=
  let cs := pyStrip s.toList
  match cs with
  | '+' :: t =>
    if t ≠ [] ∧ t.all Char.isDigit then .ok ((digitsToNat t : Nat) : Int)
    else .error ("invalid literal for int with base 10: " ++ s)
  | '-' :: t =>
    if t ≠ [] ∧ t.all Char.isDigit then .ok (-((digitsToNat t : Nat) : Int))
    else .error ("invalid literal for int with base 10: " ++ s)
  | t =>
    if t ≠ [] ∧ t.all Char.isDigit then .ok ((digitsToNat t : Nat) : Int)
    else .error ("invalid literal for int with base 10: " ++ s)

/-- Ten to an integer power, as a rational. -/
def pow10 (e : Int) : Rat :=
  if 0 ≤ e then ((10 ^ e.toNat : Nat) : Rat) else 1 / ((10 ^ (-e).toNat : Nat) : Rat)

/-- Exponent part of a float literal (after `e`/`E`): optional sign, then
at least one digit, nothing else. -/
def parseExpPart : List Char → Option Int
  | [] => none
  | '+' :: t => if t ≠ [] ∧ t.all Char.isDigit then some ((digitsToNat t : Nat) : Int) else none
  | '-' :: t => if t ≠ [] ∧ t.all Char.isDigit then some (-((digitsToNat t : Nat) : Int)) else none
  | t => if t.all Char.isDigit then some ((digitsToNat t : Nat) : Int) else none

/-- Decimal number parsing, the common core of Python `float(s)` and of
pandas `to_numeric`: optional sign, integer digits, optional fraction,
optional exponent; at least one digit in the mantissa.  The value is kept
as an exact rational — only its comparison with zero is ever used by the
claims, where exactness agrees with the float semantics. -/
def pyParseNumber (cs0 : List Char) : Option Rat :=
  let sp : Int × List Char :=
    match cs0 with
    | '+' :: t => (1, t)
    | '-' :: t => (-1, t)
    | t => (1, t)
  let sgn := sp.1
  let cs := sp.2
  let ip := cs.takeWhile Char.isDigit
  let r1 := cs.dropWhile Char.isDigit
  let fr : List Char × List Char :=
    match r1 with
    | '.' :: t => (t.takeWhile Char.isDigit, t.dropWhile Char.isDigit)
    | t => ([], t)
  let fp := fr.1
  let r2 := fr.2
  if ip = [] ∧ fp = [] then none
  else
    let mant : Rat :=
      (sgn : Rat) * ((digitsToNat (ip ++ fp) : Nat) : Rat) / ((10 ^ fp.length : Nat) : Rat)
    match r2 with
    | [] => some mant
    | 'e' :: t => (parseExpPart t).map (fun e => mant * pow10 e)
    | 'E' :: t => (parseExpPart t).map (fun e => mant * pow10 e)
    | _ => none

/-- Model of Python `float(s)` where the source coerces an optional scalar. -/
def pyParseFloat (s : String) : Except String Rat :=
  match pyParseNumber (pyStrip s.toList) with
  | some x => .ok x
  | none => .error ("could not convert string to float: " ++ s)

/-- Source `_opt_int` (lines 247-248): `None` stays `None`, otherwise
`int(v)` (which may raise). -/
def _opt_int (v : Option String) : Except String (Option Int) :=
  match v with
  | none => .ok none
  | some s => (pyParseInt s).map some

/-- Source `_opt_float` (lines 251-252). -/
def _opt_float (v : Option String) : Except String (Option Rat) :=
  match v with
  | none => .ok none
  | some s => (pyParseFloat s).map some

/-- Source `_opt_str` (lines 255-259): empty string becomes `None`. -/
def _opt_str (v : Option String) : Option String :=
  match v with
  | none => none
  | some s => if s = "" then none else some s

/-- Model of `int(row["ID"])`: `KeyError` when the key is absent, a
`TypeError` when the cell is NULL, otherwise `int` conversion. -/
def pyIntItem (row : SqlRow) (k : String) : Except String Int :=
  match row.lookup k with
  | none => .error ("KeyError: " ++ k)
  | some none => .error ("int() argument must be a string or a number, not NoneType")
  | some (some s) => pyParseInt s

/-- Source dataclass `TradeRecord` (lines 80-106): float fields as exact
rationals, temporal fields as decoded instants. -/
structure TradeRecord where
  id : Int
  trade_account_id : Option Int
  ticket : Option Int
  symbol_name : Option String
  digits : Option Int
  type : Option Int
  quantity : Option Rat
  state : Option Int
  open_time : Option DateTime
  open_price : Option Rat
  open_rate : Option Rat
  close_time : Option DateTime
  close_price : Option Rat
  close_rate : Option Rat
  stop_loss : Option Rat
  take_profit : Option Rat
  expiration : Option DateTime
  commission : Option Rat
  commission_agent : Option Rat
  swap : Option Rat
  profit : Option Rat
  tax : Option Rat
  magic : Option Int
  comment : Option String
  timestamp : Option DateTime
deriving DecidableEq, Repr

/-- Source `row_to_trade_record` (lines 217-244). -/
def row_to_trade_record (row : SqlRow) : Except String TradeRecord := do
  let i ← pyIntItem row "ID"
  let tai ← _opt_int (rowGet row "TradeAccountID")
  let tick ← _opt_int (rowGet row "Ticket")
  let sym := _opt_str (rowGet row "SymbolName")
  let dig ← _opt_int (rowGet row "Digits")
  let ty ← _opt_int (rowGet row "Type")
  let qty ← _opt_float (rowGet row "Quantity")
  let st ← _opt_int (rowGet row "State")
  let ot ← bigint_hr_to_datetime ((rowGet row "OpenTime").map String.toList)
  let op ← _opt_float (rowGet row "OpenPrice")
  let orr ← _opt_float (rowGet row "OpenRate")
  let ct ← bigint_hr_to_datetime ((rowGet row "CloseTime").map String.toList)
  let cp ← _opt_float (rowGet row "ClosePrice")
  let cr ← _opt_float (rowGet row "CloseRate")
  let sl ← _opt_float (rowGet row "StopLoss")
  let tp ← _opt_float (rowGet row "TakeProfit")
  let ex ← bigint_hr_to_datetime ((rowGet row "Expiration").map String.toList)
  let com ← _opt_float (rowGet row "Commission")
  let coma ← _opt_float (rowGet row "CommissionAgent")
  let sw ← _opt_float (rowGet row "Swap")
  let pr ← _opt_float (rowGet row "Profit")
  let tx ← _opt_float (rowGet row "Tax")
  let mg ← _opt_int (rowGet row "Magic")
  let cmt := _opt_str (rowGet row "Comment")
  let ts ← bigint_hr_to_datetime ((rowGet row "TimeStamp").map String.toList)
  pure { id := i, trade_account_id := tai, ticket := tick, symbol_name := sym,
         digits := dig, type := ty, quantity := qty, state := st,
         open_time := ot, open_price := op, open_rate := orr, close_time := ct,
         close_price := cp, close_rate := cr, stop_loss := sl, take_profit := tp,
         expiration := ex, commission := com, commission_agent := coma,
         swap := sw, profit := pr, tax := tx, magic := mg, comment := cmt,
         timestamp := ts }

/-- Failure modes of `fetch_trades_by_sql` (all `ValueError` in Python,
distinguished here by their meaning). -/
inductive FetchError where
  | forbiddenStatement : FetchError
  | schemaMismatch : List String → FetchError
  | rowError : String → FetchError
deriving DecidableEq, Repr

/-- Source `fetch_trades_by_sql` (lines 302-320), with the database
execution abstracted as the pair of the result's column set and its rows:
reject non-SELECT text; zero rows succeed with `[]` and no column check;
otherwise the required columns minus the returned columns must be empty —
the missing ones are reported sorted — and only then is every row mapped. -/
def fetch_trades_by_sql (sql : List Char) (cols : List String) (rows : List SqlRow) :
    Except FetchError (List TradeRecord) :=
  if !(is_select_only sql) then .error .forbiddenStatement
  else if rows.isEmpty then .ok []
  else
    let missing := COLUMNS.filter (fun c => !(cols.contains c))
    if missing.isEmpty then
      match rows.mapM row_to_trade_record with
      | .ok rs => .ok rs
      | .error e => .error (.rowError e)
    else
      .error (.schemaMismatch (sortStrings missing))

/-! ## CSV row filter (`Filtertrade.py`) -/

/-- One CSV row: column name to cell; `none` is a missing/NA cell. -/
abbrev CsvRow := List (String × Option String)

/-- A chunk as read by pandas: the column schema and the rows. -/
structure DataFrame where
  columns : List String
  rows : List CsvRow
deriving DecidableEq, Repr

/-- Cell of a row in a column: NA when the pair is absent or the cell null. -/
def getCell (r : CsvRow) (c : String) : Option String :=
  (r.lookup c).bind id

/-- Source `CANCELLED_TOKENS` (line 32). -/
def CANCELLED_TOKENS : List String := ["cancelled", "canceled"]

/-- Source `_normalize_comment` (lines 79-82) on one cell:
`astype("string").fillna("").str.strip().str.lower()`. -/
def _normalize_comment (cell : Option String) : String :=
  ((pyStrip (cell.getD "").toList).map Char.toLower).asString

/-- Source `_magic_is_zero` (lines 85-88) on one cell:
`pd.to_numeric(x, errors="coerce").eq(0)` — NA or an unparsable value
coerces to NaN, and `NaN == 0` is false. -/
def _magic_is_zero (cell : Option String) : Bool :=
  match cell with
  | none => false
  | some s =>
    match pyParseNumber (pyStrip s.toList) with
    | none => false
    | some x => decide (x = 0)

/-- The per-row drop mask of `filter_chunk` when both columns exist
(lines 100-104). -/
def drop_mask (r : CsvRow) : Bool :=
  _magic_is_zero (getCell r "magic") ||
  CANCELLED_TOKENS.contains (_normalize_comment (getCell r "comment"))

/-- Source `filter_chunk` (lines 91-105): missing `magic` raises
`KeyError`; missing `comment` restricts the mask to the magic condition;
kept rows are returned unmodified. -/
def filter_chunk (df : DataFrame) : Except String DataFrame :=
  if !(df.columns.contains "magic") then
    .error ("Missing magic column in CSV")
  else if !(df.columns.contains "comment") then
    .ok ⟨df.columns, df.rows.filter (fun r => !(_magic_is_zero (getCell r "magic")))⟩
  else
    .ok ⟨df.columns, df.rows.filter (fun r => !(drop_mask r))⟩

/-- Source `filter_csv` chunk loop (lines 151-161), with I/O abstracted:
chunks are filtered in order, outputs concatenated; a `KeyError` from any
chunk is re-raised and aborts the whole run. -/
def filter_csv : List DataFrame → List CsvRow → Except String (List CsvRow)
  | [], acc => .ok acc
  | df :: rest, acc =>
    match filter_chunk df with
    | .error e => .error e
    | .ok out => filter_csv rest (acc ++ out.rows)

/-- Decidable equality for the `Except` results the theorems evaluate. -/
instance {ε α : Type} [DecidableEq ε] [DecidableEq α] : DecidableEq (Except ε α) :=
  fun x y =>
    match x, y with
    | .ok a, .ok b =>
      if h : a = b then .isTrue (by rw [h]) else .isFalse (fun hc => h (by cases hc; rfl))
    | .error a, .error b =>
      if h : a = b then .isTrue (by rw [h]) else .isFalse (fun hc => h (by cases hc; rfl))
    | .ok _, .error _ => .isFalse (fun hc => Except.noConfusion hc)
    | .error _, .ok _ => .isFalse (fun hc => Except.noConfusion hc)

/-! ## Helper lemmas: characters and stripping -/

theorem isDigit_toNat_bounds (c : Char) (h : c.isDigit = true) :
    48 ≤ c.toNat ∧ c.toNat ≤ 57 := by
  simp only [Char.isDigit, ge_iff_le, Bool.and_eq_true, decide_eq_true_eq] at h
  exact ⟨UInt32.le_toNat_of_le (by norm_num) h.1, UInt32.toNat_le_of_le (by norm_num) h.2⟩

theorem isPySpace_eq_false_of_isDigit (c : Char) (h : c.isDigit = true) :
    isPySpace c = false := by
  by_contra hne
  have hsp : isPySpace c = true := by
    cases hx : isPySpace c
    · exact absurd hx hne
    · rfl
  simp only [isPySpace, Bool.or_eq_true, decide_eq_true_eq] at hsp
  rcases hsp with ((((h1 | h1) | h1) | h1) | h1) | h1 <;> subst h1 <;>
    exact absurd h (by decide)

theorem digit_toNat_sub_le (c : Char) (h : c.isDigit = true) : c.toNat - 48 ≤ 9 := by
  have := isDigit_toNat_bounds c h
  omega

theorem lstripWS_of_digits (l : List Char) (h : ∀ c ∈ l, c.isDigit = true) :
    lstripWS l = l := by
  cases l with
  | nil => rfl
  | cons c t =>
    simp [lstripWS, List.dropWhile_cons,
      isPySpace_eq_false_of_isDigit c (h c (by simp))]

theorem rstripWS_nil : rstripWS [] = [] := rfl

theorem rstripWS_cons_eq (c : Char) (t : List Char) :
    rstripWS (c :: t) = match rstripWS t with
      | [] => if isPySpace c then [] else [c]
      | x => c :: x := rfl

theorem rstripWS_of_nonspace (l : List Char) (h : ∀ c ∈ l, isPySpace c = false) :
    rstripWS l = l := by
  induction l with
  | nil => rfl
  | cons c t ih =>
    have ht : rstripWS t = t := ih (fun x hx => h x (by simp [hx]))
    rw [rstripWS_cons_eq, ht]
    cases t with
    | nil => simp [h c (by simp)]
    | cons d u => rfl

theorem pyStrip_of_digits (l : List Char) (h : ∀ c ∈ l, c.isDigit = true) :
    pyStrip l = l := by
  unfold pyStrip
  rw [lstripWS_of_digits l h]
  exact rstripWS_of_nonspace l (fun c hc => isPySpace_eq_false_of_isDigit c (h c hc))

theorem lstripWS_idem (l : List Char) : lstripWS (lstripWS l) = lstripWS l := by
  induction l with
  | nil => rfl
  | cons c t ih =>
    by_cases h : isPySpace c = true
    · simpa [lstripWS, List.dropWhile_cons, h] using ih
    · have h' : isPySpace c = false := by simpa using h
      simp [lstripWS, List.dropWhile_cons, h']

theorem rstripWS_idem (l : List Char) : rstripWS (rstripWS l) = rstripWS l := by
  induction l with
  | nil => rfl
  | cons c t ih =>
    cases ht : rstripWS t with
    | nil =>
      rw [rstripWS_cons_eq, ht]
      by_cases h : isPySpace c = true
      · simp [h, rstripWS_nil]
      · have h' : isPySpace c = false := by simpa using h
        simp [h', rstripWS_cons_eq, rstripWS_nil]
    | cons r rs =>
      rw [ht] at ih
      rw [rstripWS_cons_eq, ht]
      show rstripWS (c :: r :: rs) = c :: r :: rs
      rw [rstripWS_cons_eq, ih]

theorem rstripWS_cons_shape (c : Char) (t : List Char) :
    rstripWS (c :: t) = [] ∨ ∃ r, rstripWS (c :: t) = c :: r := by
  rw [rstripWS_cons_eq]
  cases ht : rstripWS t with
  | nil =>
    by_cases h : isPySpace c = true
    · left; simp [h]
    · right
      have h' : isPySpace c = false := by simpa using h
      exact ⟨[], by simp [h']⟩
  | cons r rs => right; exact ⟨r :: rs, rfl⟩

theorem lstripWS_rstripWS_of_lstripped (m : List Char) (hm : lstripWS m = m) :
    lstripWS (rstripWS m) = rstripWS m := by
  cases m with
  | nil => rfl
  | cons c t =>
    have hc : isPySpace c = false := by
      by_contra hne
      have hsp : isPySpace c = true := by
        cases hx : isPySpace c
        · exact absurd hx hne
        · rfl
      have hlen := (List.dropWhile_sublist (l := t) isPySpace).length_le
      simp only [lstripWS, List.dropWhile_cons, hsp, if_true] at hm
      rw [hm] at hlen
      simp at hlen
    rcases rstripWS_cons_shape c t with h | ⟨r, hr⟩
    · rw [h]; rfl
    · rw [hr]; simp [lstripWS, List.dropWhile_cons, hc]

theorem pyStrip_idem (l : List Char) : pyStrip (pyStrip l) = pyStrip l := by
  unfold pyStrip
  rw [lstripWS_rstripWS_of_lstripped (lstripWS l) (lstripWS_idem l), rstripWS_idem]

/-! ## Helper lemmas: digit strings and numbers -/

theorem foldl_digits_acc (l : List Char) (a : Nat) :
    l.foldl (fun x c => x * 10 + (c.toNat - 48)) a
      = a * 10 ^ l.length + l.foldl (fun x c => x * 10 + (c.toNat - 48)) 0 := by
  induction l generalizing a with
  | nil => simp
  | cons c t ih =>
    simp only [List.foldl_cons, List.length_cons]
    rw [ih (a * 10 + (c.toNat - 48)), ih (0 * 10 + (c.toNat - 48))]
    ring

theorem digitsToNat_cons (c : Char) (t : List Char) :
    digitsToNat (c :: t) = (c.toNat - 48) * 10 ^ t.length + digitsToNat t := by
  unfold digitsToNat
  simp only [List.foldl_cons]
  rw [foldl_digits_acc]
  ring

theorem digitsToNat_append (a b : List Char) :
    digitsToNat (a ++ b) = digitsToNat a * 10 ^ b.length + digitsToNat b := by
  unfold digitsToNat
  rw [List.foldl_append, foldl_digits_acc]

theorem digitsToNat_lt (l : List Char) (h : ∀ c ∈ l, c.isDigit = true) :
    digitsToNat l < 10 ^ l.length := by
  induction l with
  | nil => simp [digitsToNat]
  | cons c t ih =>
    rw [digitsToNat_cons]
    have hd : c.toNat - 48 ≤ 9 := digit_toNat_sub_le c (h c (by simp))
    have ht : digitsToNat t < 10 ^ t.length := ih (fun x hx => h x (by simp [hx]))
    have : (c.toNat - 48) * 10 ^ t.length ≤ 9 * 10 ^ t.length :=
      Nat.mul_le_mul_right _ hd
    calc (c.toNat - 48) * 10 ^ t.length + digitsToNat t
        < (c.toNat - 48) * 10 ^ t.length + 10 ^ t.length := by omega
      _ ≤ 9 * 10 ^ t.length + 10 ^ t.length := by omega
      _ = 10 ^ (t.length + 1) := by ring
      _ = 10 ^ (c :: t).length := by simp

theorem padN_length (k n : Nat) : (padN k n).length = k := by
  induction k generalizing n with
  | zero => rfl
  | succ k ih => simp [padN, ih]

theorem digitChar_isDigit (d : Nat) (h : d ≤ 9) : (Nat.digitChar d).isDigit = true := by
  interval_cases d <;> rfl

theorem digitChar_toNat (d : Nat) (h : d ≤ 9) : (Nat.digitChar d).toNat = d + 48 := by
  interval_cases d <;> rfl

theorem digitChar_inv (c : Char) (h : c.isDigit = true) :
    Nat.digitChar (c.toNat - 48) = c := by
  have hb := isDigit_toNat_bounds c h
  have : Nat.digitChar (c.toNat - 48) = Char.ofNat c.toNat := by
    have h9 : c.toNat - 48 ≤ 9 := by omega
    have : c.toNat = (c.toNat - 48) + 48 := by omega
    rw [this]
    generalize c.toNat - 48 = d at h9 ⊢
    interval_cases d <;> rfl
  rw [this, Char.ofNat_toNat]

theorem padN_digits (k n : Nat) : ∀ c ∈ padN k n, c.isDigit = true := by
  induction k generalizing n with
  | zero => simp [padN]
  | succ k ih =>
    intro c hc
    simp only [padN, List.mem_append, List.mem_singleton] at hc
    rcases hc with hc | hc
    · exact ih (n / 10) c hc
    · subst hc; exact digitChar_isDigit _ (by omega)

theorem digitsToNat_padN (k n : Nat) : digitsToNat (padN k n) = n % 10 ^ k := by
  induction k generalizing n with
  | zero => simp [padN, digitsToNat, Nat.mod_one]
  | succ k ih =>
    simp only [padN]
    rw [digitsToNat_append, ih]
    have hd : digitsToNat [Nat.digitChar (n % 10)] = n % 10 := by
      have := digitChar_toNat (n % 10) (by omega)
      simp [digitsToNat, this]
    rw [hd]
    simp only [List.length_singleton, pow_one]
    rw [pow_succ', Nat.mod_mul]
    ring

theorem digitsToNat_padN_of_lt (k n : Nat) (h : n < 10 ^ k) :
    digitsToNat (padN k n) = n := by
  rw [digitsToNat_padN, Nat.mod_eq_of_lt h]

theorem padN_add (k j n : Nat) : padN (k + j) n = padN k (n / 10 ^ j) ++ padN j n := by
  induction j generalizing n with
  | zero => simp [padN]
  | succ j ih =>
    have h1 : k + (j + 1) = (k + j) + 1 := rfl
    rw [h1]
    show padN (k + j) (n / 10) ++ [Nat.digitChar (n % 10)] = _
    rw [ih (n / 10)]
    have h2 : n / 10 / 10 ^ j = n / 10 ^ (j + 1) := by
      rw [Nat.div_div_eq_div_mul, ← pow_succ']
    rw [h2, List.append_assoc]
    rfl

theorem digitsToNat_singleton (c : Char) : digitsToNat [c] = c.toNat - 48 := by
  simp [digitsToNat]

theorem padN_digitsToNat (l : List Char) (h : ∀ c ∈ l, c.isDigit = true) :
    padN l.length (digitsToNat l) = l := by
  induction l using List.reverseRecOn with
  | nil => rfl
  | append_singleton t c ih =>
    have hc : c.isDigit = true := h c (by simp)
    have hd : c.toNat - 48 ≤ 9 := digit_toNat_sub_le c hc
    have hlen : (t ++ [c]).length = t.length + 1 := by simp
    rw [hlen, digitsToNat_append, digitsToNat_singleton]
    simp only [List.length_singleton, pow_one]
    have hdiv : (digitsToNat t * 10 + (c.toNat - 48)) / 10 = digitsToNat t := by omega
    have hmod : (digitsToNat t * 10 + (c.toNat - 48)) % 10 = c.toNat - 48 := by omega
    show padN t.length ((digitsToNat t * 10 + (c.toNat - 48)) / 10) ++
        [Nat.digitChar ((digitsToNat t * 10 + (c.toNat - 48)) % 10)] = t ++ [c]
    rw [hdiv, hmod, ih (fun x hx => h x (by simp [hx])), digitChar_inv c hc]

theorem natDigitsFuel_spec (k : Nat) :
    ∀ fuel n acc, 10 ^ k ≤ n → n < 10 ^ (k + 1) → k ≤ fuel →
      natDigitsFuel fuel n acc = padN (k + 1) n ++ acc := by
  induction k with
  | zero =>
    intro fuel n acc h1 h2 _
    have hn : n < 10 := by simpa using h2
    have hmod : n % 10 = n := Nat.mod_eq_of_lt hn
    cases fuel with
    | zero => simp [natDigitsFuel, padN, hmod]
    | succ f => simp [natDigitsFuel, padN, hn, hmod]
  | succ k ih =>
    intro fuel n acc h1 h2 hf
    cases fuel with
    | zero => omega
    | succ f =>
      have h10 : ¬ n < 10 := by
        have : (10 : Nat) ≤ 10 ^ (k + 1) := by
          calc (10 : Nat) = 10 ^ 1 := (pow_one 10).symm
          _ ≤ 10 ^ (k + 1) := Nat.pow_le_pow_right (by norm_num) (by omega)
        omega
      simp only [natDigitsFuel, h10, if_false]
      have hq1 : 10 ^ k ≤ n / 10 := by
        rw [Nat.le_div_iff_mul_le (by norm_num)]
        calc 10 ^ k * 10 = 10 ^ (k + 1) := by ring
        _ ≤ n := h1
      have hq2 : n / 10 < 10 ^ (k + 1) := by
        rw [Nat.div_lt_iff_lt_mul (by norm_num)]
        calc n < 10 ^ (k + 2) := h2
        _ = 10 ^ (k + 1) * 10 := by ring
      rw [ih f (n / 10) (Nat.digitChar (n % 10) :: acc) hq1 hq2 (by omega)]
      show _ = (padN (k + 1) (n / 10) ++ [Nat.digitChar (n % 10)]) ++ acc
      rw [List.append_assoc]
      rfl

theorem natDigits_eq_padN (k n : Nat) (h1 : 10 ^ k ≤ n) (h2 : n < 10 ^ (k + 1)) :
    natDigits n = padN (k + 1) n := by
  have hk : k < 10 ^ k := Nat.lt_pow_self (by norm_num) k
  have := natDigitsFuel_spec k n n [] h1 h2 (by omega)
  simpa [natDigits] using this

/-! ## Helper lemmas: encoding -/

theorem daysInMonth_le_31 (y m : Nat) : daysInMonth y m ≤ 31 := by
  unfold daysInMonth
  repeat' split
  all_goals omega

theorem ValidDT_iff (d : DateTime) : ValidDT d = true ↔
    1 ≤ d.year ∧ d.year ≤ 9999 ∧ 1 ≤ d.month ∧ d.month ≤ 12 ∧ 1 ≤ d.day ∧
    d.day ≤ daysInMonth d.year d.month ∧ d.hour ≤ 23 ∧ d.minute ≤ 59 ∧
    d.second ≤ 59 ∧ d.microsecond ≤ 999999 := by
  simp [ValidDT, Bool.and_eq_true, decide_eq_true_eq, and_assoc]

theorem strftime14_set_micro (d : DateTime) (m : Nat) :
    strftime14 { d with microsecond := m } = strftime14 d := rfl

theorem digitsToNat_strftime14 (d : DateTime) (hy : d.year ≤ 9999) (hmo : d.month ≤ 12)
    (hd : d.day ≤ 31) (hh : d.hour ≤ 23) (hmi : d.minute ≤ 59) (hs : d.second ≤ 59) :
    digitsToNat (strftime14 d) = dateNum d := by
  unfold strftime14 dateNum
  rw [digitsToNat_append, digitsToNat_append, digitsToNat_append, digitsToNat_append,
      digitsToNat_append]
  simp only [List.length_append, padN_length]
  rw [digitsToNat_padN_of_lt 4 _ (by omega), digitsToNat_padN_of_lt 2 d.month (by omega),
      digitsToNat_padN_of_lt 2 d.day (by omega), digitsToNat_padN_of_lt 2 d.hour (by omega),
      digitsToNat_padN_of_lt 2 d.minute (by omega), digitsToNat_padN_of_lt 2 d.second (by omega)]
  norm_num
  ring

theorem pyRoundMs_le (micro : Nat) (h : micro ≤ 999999) : pyRoundMs micro ≤ 1000 := by
  simp only [pyRoundMs]
  split <;> try split <;> try split
  all_goals omega

theorem msFinal_le_999 (micro : Nat) (h : micro ≤ 999999) : msFinal micro ≤ 999 := by
  have := pyRoundMs_le micro h
  simp only [msFinal]
  split <;> omega

/-! ## Helper lemmas: validation -/

theorem validate_ok_of (q : TradeQuery)
    (h1 : q.order_by ∈ allowedCols) (h2 : q.order_dir = "ASC" ∨ q.order_dir = "DESC")
    (h3 : 1 ≤ q.limit) (h4 : q.limit ≤ 10000) (h5 : 0 ≤ q.offset) :
    TradeQuery.validate q = .ok () := by
  have n1 : ¬((!(allowedCols.contains q.order_by)) = true) := by
    simp [List.contains, h1]
  have n2 : ¬((!(q.order_dir = "ASC" || q.order_dir = "DESC" : Bool)) = true) := by
    rcases h2 with h | h <;> simp [h]
  have n3 : ¬((q.limit ≤ 0 || 10000 < q.limit : Bool) = true) := by
    simp only [Bool.or_eq_true, decide_eq_true_eq]
    omega
  have n4 : ¬(q.offset < 0) := by omega
  unfold TradeQuery.validate
  rw [if_neg n1, if_neg n2, if_neg n3, if_neg n4]

theorem validate_ok_shape (q : TradeQuery) :
    TradeQuery.validate q = .ok () ∨ ∃ msg, TradeQuery.validate q = .error msg := by
  unfold TradeQuery.validate
  split
  · right; exact ⟨_, rfl⟩
  · split
    · right; exact ⟨_, rfl⟩
    · split
      · right; exact ⟨_, rfl⟩
      · split
        · right; exact ⟨_, rfl⟩
        · left; rfl

theorem validate_ok_conditions (q : TradeQuery) (h : TradeQuery.validate q = .ok ()) :
    q.order_by ∈ allowedCols ∧ (q.order_dir = "ASC" ∨ q.order_dir = "DESC") ∧
    1 ≤ q.limit ∧ q.limit ≤ 10000 ∧ 0 ≤ q.offset := by
  unfold TradeQuery.validate at h
  split at h
  · exact absurd h (by simp)
  next c1 =>
    split at h
    · exact absurd h (by simp)
    next c2 =>
      split at h
      · exact absurd h (by simp)
      next c3 =>
        split at h
        · exact absurd h (by simp)
        next c4 =>
          refine ⟨?_, ?_, ?_, ?_, ?_⟩
          · simp only [Bool.not_eq_true, Bool.not_eq_false] at c1
            simpa [List.contains] using c1
          · by_cases hA : q.order_dir = "ASC"
            · exact Or.inl hA
            · right
              simpa [hA] using c2
          · simp only [Bool.or_eq_true, decide_eq_true_eq, not_or] at c3
            omega
          · simp only [Bool.or_eq_true, decide_eq_true_eq, not_or] at c3
            omega
          · omega

theorem encodeDT_eq (d : DateTime) (h : ValidDT d = true) :
    encodeDT d = dateNum d * 1000 + msFinal d.microsecond := by
  obtain ⟨hy1, hy2, hm1, hm2, hd1, hd2, hh, hmi, hs, hms⟩ := (ValidDT_iff d).mp h
  have hd31 : d.day ≤ 31 := le_trans hd2 (daysInMonth_le_31 _ _)
  have hdt := digitsToNat_strftime14 d hy2 hm2 hd31 hh hmi hs
  have hle := msFinal_le_999 d.microsecond hms
  simp only [encodeDT, msFinal] at hle ⊢
  by_cases hc : pyRoundMs d.microsecond = 1000
  · simp only [hc, if_true, reduceIte]
    rw [strftime14_set_micro, digitsToNat_append]
    simp only [padN_length]
    rw [hdt, digitsToNat_padN_of_lt 3 0 (by norm_num)]
    norm_num
  · have hlt : pyRoundMs d.microsecond ≤ 999 := by
      have := pyRoundMs_le d.microsecond hms
      omega
    simp only [hc, if_false, reduceIte]
    rw [digitsToNat_append]
    simp only [padN_length]
    rw [hdt, digitsToNat_padN_of_lt 3 _ (by norm_num; omega)]
    norm_num

/-! ## Claim C6 -/

/-- C6: for every filter-criteria record, validation raises a `ValidationError` —
and the query builder then fails before building any query text — if and only if
the ordering column is outside `{ID, OpenTime, CloseTime, TimeStamp, Ticket}`, or
the ordering direction is outside `{ASC, DESC}`, or the limit is outside
`[1, 10000]`, or the offset is negative. -/
theorem C6_validate_iff (q : TradeQuery) :
    ((∃ msg, TradeQuery.validate q = .error msg) ↔
      (q.order_by ∉ allowedCols ∨ ¬(q.order_dir = "ASC" ∨ q.order_dir = "DESC") ∨
       q.limit < 1 ∨ 10000 < q.limit ∨ q.offset < 0)) ∧
    (∀ msg, TradeQuery.validate q = .error msg → build_where_and_params q = .error msg) := by
  constructor
  · constructor
    · rintro ⟨msg, hmsg⟩
      by_contra hno
      push_neg at hno
      obtain ⟨h1, h2, h3, h4, h5⟩ := hno
      have hok := validate_ok_of q h1 h2 h3 h4 h5
      rw [hok] at hmsg
      exact Except.noConfusion hmsg
    · intro h
      rcases validate_ok_shape q with hok | he
      · exfalso
        obtain ⟨c1, c2, c3, c4, c5⟩ := validate_ok_conditions q hok
        rcases h with h | h | h | h | h
        · exact h c1
        · exact h c2
        · omega
        · omega
        · omega
      · exact he
  · intro msg hmsg
    unfold build_where_and_params
    rw [hmsg]

/-- Witness for C6 at the concrete query `order_by = "DROP TABLE"`. -/
theorem C6_validate_iff_witness :
    ∃ msg, TradeQuery.validate { order_by := "DROP TABLE" } = .error msg ∧
      build_where_and_params { order_by := "DROP TABLE" } = .error msg := by
  have h := C6_validate_iff { order_by := "DROP TABLE" }
  obtain ⟨msg, hmsg⟩ := h.1.mpr (by left; decide)
  exact ⟨msg, hmsg, h.2 msg hmsg⟩

/-! ## Claim C10 -/

/-- C10: a symbol or comment-substring filter supplied as the empty string is
treated as unset (truthiness test) and the whole built query is identical to the
one with the filter absent, whereas an account-id or ticket filter equal to `0`
still contributes its equality predicate (tested only against `None`). -/
theorem C10_truthiness :
    (∀ q : TradeQuery, build_where_and_params { q with symbol := some "" } =
        build_where_and_params { q with symbol := none }) ∧
    (∀ q : TradeQuery, build_where_and_params { q with comment_like := some "" } =
        build_where_and_params { q with comment_like := none }) ∧
    (∀ q : TradeQuery, q.trade_account_id = some 0 →
        "TradeAccountID = %s" ∈ whereClauses q ∧ Param.pint 0 ∈ whereParams q) ∧
    (∀ q : TradeQuery, q.ticket = some 0 →
        "Ticket = %s" ∈ whereClauses q ∧ Param.pint 0 ∈ whereParams q) := by
  refine ⟨?_, ?_, ?_, ?_⟩
  · intro q
    unfold build_where_and_params whereClauses whereParams TradeQuery.validate
    rfl
  · intro q
    unfold build_where_and_params whereClauses whereParams TradeQuery.validate
    rfl
  · intro q h
    constructor
    · unfold whereClauses
      rw [h]
      simp
    · unfold whereParams
      rw [h]
      simp
  · intro q h
    constructor
    · unfold whereClauses
      rw [h]
      simp
    · unfold whereParams
      rw [h]
      simp

/-- Witness for C10 at concrete queries. -/
theorem C10_truthiness_witness :
    build_where_and_params { symbol := some "" } = build_where_and_params { symbol := none } ∧
    "TradeAccountID = %s" ∈ whereClauses { trade_account_id := some 0 } := by
  refine ⟨?_, ?_⟩
  · exact C10_truthiness.1 { symbol := some "" }
  · exact (C10_truthiness.2.2.1 { trade_account_id := some 0 } rfl).1

theorem append_congr {α : Type} {a b c d : List α} (h1 : a = b) (h2 : c = d) :
    a ++ c = b ++ d := by rw [h1, h2]

/-! ## Claim C7 -/

/-- C7: for every valid filter-criteria record, the built WHERE clause contains
exactly one AND-joined predicate per populated optional filter field, in the
fixed order account-id, ticket, symbol, open-time lower/upper, close-time
lower/upper, comment substring (wildcards on both sides); unset fields
contribute nothing, and the four temporal bounds pass through the timestamp
encoder before being bound as parameters — stated as agreement with the
spec-side ordered predicate list `specFilterPredicates`. -/
theorem C7_where_clause_order (q : TradeQuery) (h : TradeQuery.validate q = .ok ()) :
    build_where_and_params q = .ok
      ((if (specFilterPredicates q).map Prod.fst = [] then ""
        else " WHERE " ++ String.intercalate " AND " ((specFilterPredicates q).map Prod.fst)),
       (specFilterPredicates q).map Prod.snd) := by
  have hcl : whereClauses q = (specFilterPredicates q).map Prod.fst := by
    unfold whereClauses specFilterPredicates
    simp only [List.map_append]
    refine append_congr (append_congr (append_congr (append_congr (append_congr
      (append_congr (append_congr ?_ ?_) ?_) ?_) ?_) ?_) ?_) ?_
    · cases q.trade_account_id <;> rfl
    · cases q.ticket <;> rfl
    · cases q.symbol with
      | none => rfl
      | some s => by_cases hs : s = "" <;> simp [hs]
    · cases q.opened_from <;> rfl
    · cases q.opened_to <;> rfl
    · cases q.closed_from <;> rfl
    · cases q.closed_to <;> rfl
    · cases q.comment_like with
      | none => rfl
      | some c => by_cases hc : c = "" <;> simp [hc]
  have hpr : whereParams q = (specFilterPredicates q).map Prod.snd := by
    unfold whereParams specFilterPredicates
    simp only [List.map_append]
    refine append_congr (append_congr (append_congr (append_congr (append_congr
      (append_congr (append_congr ?_ ?_) ?_) ?_) ?_) ?_) ?_) ?_
    · cases q.trade_account_id <;> rfl
    · cases q.ticket <;> rfl
    · cases q.symbol with
      | none => rfl
      | some s => by_cases hs : s = "" <;> simp [hs]
    · cases q.opened_from <;> rfl
    · cases q.opened_to <;> rfl
    · cases q.closed_from <;> rfl
    · cases q.closed_to <;> rfl
    · cases q.comment_like with
      | none => rfl
      | some c => by_cases hc : c = "" <;> simp [hc]
  unfold build_where_and_params
  rw [h, hcl, hpr]

/-- Witness for C7 at a concrete valid query with account-id, an open-time
lower bound, and a comment substring. -/
theorem C7_where_clause_order_witness :
    build_where_and_params
        { trade_account_id := some 111, opened_from := some ⟨2023, 2, 9, 0, 0, 0, 0⟩,
          comment_like := some "hedge" } =
      .ok ((if (specFilterPredicates
          { trade_account_id := some 111, opened_from := some ⟨2023, 2, 9, 0, 0, 0, 0⟩,
            comment_like := some "hedge" }).map Prod.fst = [] then ""
        else " WHERE " ++ String.intercalate " AND " ((specFilterPredicates
          { trade_account_id := some 111, opened_from := some ⟨2023, 2, 9, 0, 0, 0, 0⟩,
            comment_like := some "hedge" }).map Prod.fst)),
       (specFilterPredicates
          { trade_account_id := some 111, opened_from := some ⟨2023, 2, 9, 0, 0, 0, 0⟩,
            comment_like := some "hedge" }).map Prod.snd) :=
  C7_where_clause_order _ (by decide)

/-! ## Claim C9 -/

/-- C9: a chunk whose schema lacks the `magic` column fails with a
`MissingColumnError` (`KeyError`) that aborts the whole run, not just that row;
with `magic` present but `comment` absent from the schema, the only rows
removed are those whose magic parses to a number equal to zero. -/
theorem C9_missing_columns :
    (∀ df : DataFrame, df.columns.contains "magic" = false →
        filter_chunk df = .error "Missing magic column in CSV") ∧
    (∀ (chunks : List DataFrame) (acc : List CsvRow) (df : DataFrame), df ∈ chunks →
        df.columns.contains "magic" = false → ∃ e, filter_csv chunks acc = .error e) ∧
    (∀ df : DataFrame, df.columns.contains "magic" = true →
        df.columns.contains "comment" = false →
        filter_chunk df =
          .ok ⟨df.columns, df.rows.filter (fun r => !(_magic_is_zero (getCell r "magic")))⟩ ∧
        ∀ r ∈ df.rows,
          r ∉ df.rows.filter (fun r => !(_magic_is_zero (getCell r "magic"))) →
          _magic_is_zero (getCell r "magic") = true) := by
  have part1 : ∀ df : DataFrame, df.columns.contains "magic" = false →
      filter_chunk df = .error "Missing magic column in CSV" := by
    intro df h
    have hmem : "magic" ∉ df.columns := by
      intro hm
      simp [List.contains, hm] at h
    simp [filter_chunk, hmem]
  refine ⟨part1, ?_, ?_⟩
  · intro chunks
    induction chunks with
    | nil =>
      intro acc df h
      exact absurd h (List.not_mem_nil df)
    | cons c rest ih =>
      intro acc df hmem hmg
      rcases List.mem_cons.mp hmem with rfl | hmem2
      · refine ⟨"Missing magic column in CSV", ?_⟩
        simp [filter_csv, part1 df hmg]
      · cases hfc : filter_chunk c with
        | error e =>
          refine ⟨e, ?_⟩
          simp [filter_csv, hfc]
        | ok out =>
          obtain ⟨e, he⟩ := ih (acc ++ out.rows) df hmem2 hmg
          refine ⟨e, ?_⟩
          simp [filter_csv, hfc, he]
  · intro df h1 h2
    have hm1 : "magic" ∈ df.columns := by
      simpa [List.contains] using h1
    have hm2 : "comment" ∉ df.columns := by
      intro hm
      simp [List.contains, hm] at h2
    constructor
    · simp [filter_chunk, hm1, hm2]
    · intro r hr hnot
      cases hmz : _magic_is_zero (getCell r "magic") with
      | true => rfl
      | false =>
        exact absurd (List.mem_filter.mpr ⟨hr, by simp [hmz]⟩) hnot

/-- Witness for C9: a chunk without `magic` aborts; with `magic` only, rows
with zero magic are removed and others kept. -/
theorem C9_missing_columns_witness :
    filter_chunk ⟨["comment"], []⟩ = .error "Missing magic column in CSV" ∧
    (∃ e, filter_csv [⟨["comment"], []⟩] [] = .error e) ∧
    filter_chunk ⟨["magic"], [[("magic", some "0")], [("magic", some "5")]]⟩ =
      .ok ⟨["magic"],
        ([[("magic", some "0")], [("magic", some "5")]] : List CsvRow).filter
          (fun r => !(_magic_is_zero (getCell r "magic")))⟩ := by
  refine ⟨C9_missing_columns.1 ⟨["comment"], []⟩ (by decide),
    C9_missing_columns.2.1 [⟨["comment"], []⟩] [] ⟨["comment"], []⟩ (by simp) (by decide),
    (C9_missing_columns.2.2 ⟨["magic"], [[("magic", some "0")], [("magic", some "5")]]⟩
      (by decide) (by decide)).1⟩

/-! ## Claim C8 -/

theorem magic_is_zero_iff (cell : Option String) :
    _magic_is_zero cell = true ↔
      ∃ x : Rat, cell.bind (fun s => pyParseNumber (pyStrip s.toList)) = some x ∧ x = 0 := by
  cases cell with
  | none => simp [_magic_is_zero]
  | some s =>
    cases hp : pyParseNumber (pyStrip s.toList) with
    | none =>
      simp only [_magic_is_zero, Option.some_bind]
      rw [hp]
      simp
    | some x =>
      simp only [_magic_is_zero, Option.some_bind]
      rw [hp]
      simp

theorem cancelled_iff (cell : Option String) :
    CANCELLED_TOKENS.contains (_normalize_comment cell) = true ↔
      (_normalize_comment cell = "cancelled" ∨ _normalize_comment cell = "canceled") := by
  simp [CANCELLED_TOKENS, List.contains]

/-- C8: with both `magic` and `comment` in the schema, a row is dropped iff its
magic value parses as a number equal to 0 (unparsable magic is kept) or its
comment, trimmed and lower-cased, is exactly `cancelled` or `canceled`; kept
rows are a sublist of the input, passed through unmodified. -/
theorem C8_filter_drop_iff (df : DataFrame)
    (h1 : df.columns.contains "magic" = true) (h2 : df.columns.contains "comment" = true) :
    filter_chunk df = .ok ⟨df.columns, df.rows.filter (fun r => !(drop_mask r))⟩ ∧
    (df.rows.filter (fun r => !(drop_mask r))).Sublist df.rows ∧
    (∀ r : CsvRow, drop_mask r = true ↔
      ((∃ x : Rat, (getCell r "magic").bind (fun s => pyParseNumber (pyStrip s.toList)) = some x ∧
          x = 0) ∨
       _normalize_comment (getCell r "comment") = "cancelled" ∨
       _normalize_comment (getCell r "comment") = "canceled")) := by
  have hm1 : "magic" ∈ df.columns := by
    simpa [List.contains] using h1
  have hm2 : "comment" ∈ df.columns := by
    simpa [List.contains] using h2
  refine ⟨by simp [filter_chunk, hm1, hm2], List.filter_sublist _, ?_⟩
  intro r
  rw [drop_mask, Bool.or_eq_true, magic_is_zero_iff, cancelled_iff]

/-- Witness for C8 at a one-row chunk whose comment is `" cancelled  "`. -/
theorem C8_filter_drop_iff_witness :
    filter_chunk ⟨["magic", "comment"], [[("magic", some "5"), ("comment", some " cancelled  ")]]⟩ =
      .ok ⟨["magic", "comment"],
        ([[("magic", some "5"), ("comment", some " cancelled  ")]] : List CsvRow).filter
          (fun r => !(drop_mask r))⟩ ∧
    drop_mask [("magic", some "5"), ("comment", some " cancelled  ")] = true := by
  have h := C8_filter_drop_iff
    ⟨["magic", "comment"], [[("magic", some "5"), ("comment", some " cancelled  ")]]⟩
    (by decide) (by decide)
  refine ⟨h.1, ?_⟩
  exact (h.2.2 _).mpr (by right; left; decide)

/-! ## Claim C5 -/

/-- C5: in raw-query mode, zero returned rows succeed with an empty record list
and no column check; at least one row with a column set missing some of the 25
required canonical columns fails with a `SchemaMismatchError` naming exactly
the missing columns, sorted — before any row is mapped (the failure does not
depend on the row contents); in particular a result set missing `Ticket` and
`Digits` fails naming exactly `Digits, Ticket`. -/
theorem C5_raw_schema_check (sql : List Char) (cols : List String) (rows : List SqlRow)
    (hsel : is_select_only sql = true) :
    fetch_trades_by_sql sql cols [] = .ok [] ∧
    (rows ≠ [] → COLUMNS.filter (fun c => !(cols.contains c)) ≠ [] →
      fetch_trades_by_sql sql cols rows =
        .error (.schemaMismatch (sortStrings (COLUMNS.filter (fun c => !(cols.contains c)))))) ∧
    (rows ≠ [] →
      fetch_trades_by_sql sql (COLUMNS.filter (fun c => !(c == "Ticket" || c == "Digits"))) rows =
        .error (.schemaMismatch ["Digits", "Ticket"])) := by
  refine ⟨?_, ?_, ?_⟩
  · simp only [fetch_trades_by_sql, hsel, Bool.not_true, Bool.false_eq_true, if_false,
      List.isEmpty_nil, reduceIte]
  · intro hne hmiss
    have hie : rows.isEmpty = false := by
      cases rows with
      | nil => exact absurd rfl hne
      | cons a t => rfl
    have hie2 : (COLUMNS.filter (fun c => !(cols.contains c))).isEmpty = false := by
      cases hm : COLUMNS.filter (fun c => !(cols.contains c)) with
      | nil => exact absurd hm hmiss
      | cons a t => rfl
    simp only [fetch_trades_by_sql, hsel, hie, hie2, Bool.not_true, Bool.false_eq_true, if_false]
  · intro hne
    have hie : rows.isEmpty = false := by
      cases rows with
      | nil => exact absurd rfl hne
      | cons a t => rfl
    have hm : COLUMNS.filter (fun c =>
        !((COLUMNS.filter (fun c => !(c == "Ticket" || c == "Digits"))).contains c)) =
        ["Ticket", "Digits"] := by decide
    have hs : sortStrings ["Ticket", "Digits"] = ["Digits", "Ticket"] := by decide
    simp only [fetch_trades_by_sql, hsel, hie, hm, Bool.not_true, Bool.false_eq_true, if_false,
      List.isEmpty_cons, reduceIte, hs]

/-- Witness for C5: empty result succeeds; a nonempty result missing `Ticket`
and `Digits` fails naming exactly those. -/
theorem C5_raw_schema_check_witness :
    fetch_trades_by_sql ("select 1".toList) COLUMNS [] = .ok [] ∧
    fetch_trades_by_sql ("select 1".toList)
        (COLUMNS.filter (fun c => !(c == "Ticket" || c == "Digits"))) [[("ID", some "1")]] =
      .error (.schemaMismatch ["Digits", "Ticket"]) := by
  have h := C5_raw_schema_check ("select 1".toList) COLUMNS [[("ID", some "1")]] (by decide)
  exact ⟨h.1, h.2.2 (by decide)⟩

/-! ## Claim C4 -/

theorem lstripWS_suffix (l : List Char) : lstripWS l <:+ l := List.dropWhile_suffix _

theorem stripBlocksFuel_suffix (fuel : Nat) : ∀ s : List Char, stripBlocksFuel fuel s <:+ s := by
  induction fuel with
  | zero => intro s; exact List.suffix_refl s
  | succ f ih =>
    intro s
    simp only [stripBlocksFuel]
    split
    · split
      · exact List.suffix_refl s
      · exact ((ih _).trans ((lstripWS_suffix _).trans (List.drop_suffix _ _)))
    · exact List.suffix_refl s

theorem stripLinesFuel_suffix (fuel : Nat) : ∀ s : List Char, stripLinesFuel fuel s <:+ s := by
  induction fuel with
  | zero => intro s; exact List.suffix_refl s
  | succ f ih =>
    intro s
    simp only [stripLinesFuel]
    split
    · split
      · exact List.nil_suffix
      · exact ((ih _).trans ((lstripWS_suffix _).trans (List.drop_suffix _ _)))
    · exact List.suffix_refl s

theorem strip_leading_comments_suffix (s : List Char) : _strip_leading_comments s <:+ s := by
  unfold _strip_leading_comments
  exact ((stripLinesFuel_suffix _ _).trans (stripBlocksFuel_suffix _ _)).trans (lstripWS_suffix s)

/-- C4 as stated is false on the source: under the claim's reading — block
comments and line comments stripped repeatedly from the start, whichever is
leading — the text `--c\n/*x*/select 1` strips to `select 1` and is accepted,
but the source strips all block comments strictly before line comments, leaves
`/*x*/select 1`, and rejects the statement. -/
theorem C4_guard_counterexample :
    is_select_only ("--c\n/*x*/select 1".toList) = false ∧
    is_select_only_spec ("--c\n/*x*/select 1".toList) = true := by
  constructor <;> decide

/-- C4 amended: the guard strips leading block comments repeatedly, then
leading line comments repeatedly — in that order, so a block comment standing
after a line comment is not stripped; stripping only removes a prefix of the
text; the text is accepted iff the first six remaining characters lower-case to
`select`; and a rejected statement is never executed (raw fetch fails with the
`ForbiddenStatementError` regardless of the store's columns or rows). -/
theorem C4_guard_amended :
    (∀ s : List Char, _strip_leading_comments s <:+ s) ∧
    (∀ s : List Char, is_select_only s = true ↔
        ((_strip_leading_comments s).take 6).map Char.toLower = "select".toList) ∧
    (∀ (s : List Char) (cols : List String) (rows : List SqlRow),
        is_select_only s = false →
        fetch_trades_by_sql s cols rows = .error FetchError.forbiddenStatement) := by
  refine ⟨strip_leading_comments_suffix, ?_, ?_⟩
  · intro s
    simp [is_select_only]
  · intro s cols rows h
    simp [fetch_trades_by_sql, h]

/-- Witness for C4 amended: a DELETE statement is rejected and never executed;
stripping a commented SELECT only removes a prefix. -/
theorem C4_guard_amended_witness :
    fetch_trades_by_sql ("DELETE FROM t".toList) [] [] = .error FetchError.forbiddenStatement ∧
    _strip_leading_comments ("/* c */ select 1".toList) <:+ ("/* c */ select 1".toList) := by
  exact ⟨C4_guard_amended.2.2 _ [] [] (by decide), C4_guard_amended.1 _⟩

/-! ## Claim C3 -/

/-- C3: decode returns null exactly for a null value, an empty or
whitespace-only string, the value `0`, and the 17-digit sentinel
`19700101000000000` (each after stripping); and `19700101000000001` decodes to
the non-null instant one millisecond after the Unix epoch, so the sentinel
never decodes to the actual epoch instant. -/
theorem C3_decode_sentinel_null :
    (∀ v : Option (List Char), bigint_hr_to_datetime v = .ok none ↔
      (v = none ∨ ∃ s, v = some s ∧ (pyStrip s = [] ∨ pyStrip s = "0".toList ∨
        pyStrip s = "19700101000000000".toList))) ∧
    bigint_hr_to_datetime (some ("19700101000000001".toList)) =
      .ok (some ⟨1970, 1, 1, 0, 0, 0, 1000⟩) := by
  constructor
  · intro v
    cases v with
    | none => simp [bigint_hr_to_datetime]
    | some s =>
      constructor
      · intro h
        right
        refine ⟨s, rfl, ?_⟩
        by_contra hno
        push_neg at hno
        obtain ⟨h1, h2, h3⟩ := hno
        have hie : (pyStrip s).isEmpty = false := by
          cases hh : pyStrip s with
          | nil => exact absurd hh h1
          | cons a t => rfl
        have hcond : ((pyStrip s).isEmpty || _is_epoch_sentinel (some (pyStrip s))) = false := by
          simp only [List.isEmpty_iff, _is_epoch_sentinel, pyStrip_idem, Bool.or_eq_false_iff,
            beq_eq_false_iff_ne, ne_eq, decide_eq_false_iff_not]
          exact ⟨hie, h2, h3⟩
        simp only [bigint_hr_to_datetime, hcond, Bool.false_eq_true, if_false] at h
        split at h
        · exact Except.noConfusion h
        · split at h
          · cases hsp : strptime14 (pyStrip s) with
            | ok dt => rw [hsp] at h; simp [Except.map] at h
            | error e => rw [hsp] at h; simp [Except.map] at h
          · split at h
            · cases hsp : strptime14 ((pyStrip s).take 14) with
              | ok dt => rw [hsp] at h; simp [Except.map] at h
              | error e => rw [hsp] at h; simp [Except.map] at h
            · exact Except.noConfusion h
      · intro hcase
        rcases hcase with hnone | ⟨u, hu, hdisj⟩
        · exact absurd hnone (by simp)
        · injection hu with hu
          subst hu
          have hcond : ((pyStrip s).isEmpty || _is_epoch_sentinel (some (pyStrip s))) = true := by
            rcases hdisj with hd | hd | hd <;> rw [hd] <;> decide
          simp [bigint_hr_to_datetime, hcond]
  · decide

/-! ## Claim C2 -/

/-- C2 as stated is false on the source: Python `round` rounds half to even,
not half up — at microsecond 2500 the source emits millisecond field 2 while
half-up rounding gives 3; and for a year below 1000 the emitted integer has 16
decimal digits, not 17 characters. -/
theorem C2_encode_rounding_counterexample :
    datetime_to_bigint_hr (some ⟨2023, 1, 1, 0, 0, 0, 2500⟩) = some 20230101000000002 ∧
    roundHalfUp 2500 = 3 ∧
    (20230101000000002 : Nat) % 1000 = 2 ∧
    (natDigits (encodeDT ⟨999, 1, 1, 0, 0, 0, 0⟩)).length = 16 := by
  refine ⟨by decide, by decide, by decide, by decide⟩

/-- C2 amended: for every valid (already-UTC) datetime the source emits the
integer whose decimal digits are the 14 date/time digits followed by three
zero-padded millisecond digits (17 digits exactly when the year is at least
1000); the millisecond field is the half-to-even (Python `round`) conversion of
the sub-second component — agreeing with half-up everywhere except exact `.5`
ties — and a rounding result of 1000 is suppressed to 0, so the field is never
1000 and microseconds 999500-999999 emit field 0. -/
theorem C2_encode_shape_amended (dt : DateTime) (h : ValidDT dt = true) :
    datetime_to_bigint_hr (some dt) = some (encodeDT dt) ∧
    encodeDT dt = dateNum dt * 1000 + msFinal dt.microsecond ∧
    msFinal dt.microsecond ≤ 999 ∧
    encodeDT dt % 1000 = msFinal dt.microsecond ∧
    (dt.microsecond % 1000 ≠ 500 →
      pyRoundMs dt.microsecond = (dt.microsecond + 500) / 1000) ∧
    (999500 ≤ dt.microsecond → msFinal dt.microsecond = 0) ∧
    (1000 ≤ dt.year → 10 ^ 16 ≤ encodeDT dt ∧ encodeDT dt < 10 ^ 17) := by
  obtain ⟨hy1, hy2, hm1, hm2, hd1, hd2, hh, hmi, hs, hms⟩ := (ValidDT_iff dt).mp h
  have hd31 : dt.day ≤ 31 := le_trans hd2 (daysInMonth_le_31 _ _)
  have henc := encodeDT_eq dt h
  have hle := msFinal_le_999 dt.microsecond hms
  refine ⟨rfl, henc, hle, ?_, ?_, ?_, ?_⟩
  · rw [henc]
    omega
  · intro hne
    simp only [pyRoundMs]
    repeat' split
    all_goals omega
  · intro hbig
    simp only [msFinal, pyRoundMs]
    repeat' split
    all_goals omega
  · intro hy1000
    rw [henc]
    simp only [dateNum]
    have e1 : (10 : Nat) ^ 16 = 10000000000000000 := by norm_num
    have e2 : (10 : Nat) ^ 17 = 100000000000000000 := by norm_num
    rw [e1, e2]
    omega

/-- Witness for C2 amended at a concrete valid datetime with a tie microsecond
value. -/
theorem C2_encode_shape_amended_witness :
    datetime_to_bigint_hr (some ⟨2023, 2, 9, 8, 43, 34, 500⟩) =
      some (encodeDT ⟨2023, 2, 9, 8, 43, 34, 500⟩) ∧
    msFinal (⟨2023, 2, 9, 8, 43, 34, 500⟩ : DateTime).microsecond ≤ 999 :=
  have h := C2_encode_shape_amended ⟨2023, 2, 9, 8, 43, 34, 500⟩ (by decide)
  ⟨h.1, h.2.2.1⟩

/-! ## Claim C1 -/

/-- C1 as stated is false on the source: encoding the exact epoch instant
yields the sentinel integer 19700101000000000, which decodes back to null (not
to the epoch instant); and a decode-accepted digit string with year below 1000
re-encodes to a 16-digit integer whose decimal form is not the 17-digit
canonical string and which decode rejects. -/
theorem C1_roundtrip_counterexample :
    (ValidDT epochDT = true ∧ epochDT.microsecond % 1000 = 0 ∧
      bigint_hr_to_datetime ((datetime_to_bigint_hr (some epochDT)).map natDigits) = .ok none) ∧
    (bigint_hr_to_datetime (some ("09990101000000000".toList)) =
        .ok (some ⟨999, 1, 1, 0, 0, 0, 0⟩) ∧
      natDigits (encodeDT ⟨999, 1, 1, 0, 0, 0, 0⟩) ≠ "09990101000000000".toList ∧
      bigint_hr_to_datetime ((datetime_to_bigint_hr (some ⟨999, 1, 1, 0, 0, 0, 0⟩)).map natDigits) =
        .error "Unsupported length for BigIntHumanReadable (expect 14 or 17): 9990101000000000") := by
  refine ⟨⟨by decide, by decide, by decide⟩, by decide, by decide, by decide⟩

theorem slice_concat14 (v : List Char) (h : v.length = 14) :
    ((((v.take 4 ++ (v.drop 4).take 2) ++ (v.drop 6).take 2) ++ (v.drop 8).take 2) ++
      (v.drop 10).take 2) ++ (v.drop 12).take 2 = v := by
  have e12 : (v.drop 12).take 2 = v.drop 12 := by
    apply List.take_of_length_le
    simp [List.length_drop, h]
  have step : ∀ k m : Nat, k + 2 = m → (v.drop k).take 2 ++ v.drop m = v.drop k := by
    intro k m hkm
    subst hkm
    have := List.take_append_drop 2 (v.drop k)
    rwa [List.drop_drop] at this
  simp only [List.append_assoc]
  rw [e12, step 10 12 rfl, step 8 10 rfl, step 6 8 rfl, step 4 6 rfl]
  exact List.take_append_drop 4 v

theorem strftime14_fields (v : List Char) (hdig : ∀ c ∈ v, c.isDigit = true)
    (h : v.length = 14) :
    strftime14 ⟨digitsToNat (v.take 4), digitsToNat ((v.drop 4).take 2),
      digitsToNat ((v.drop 6).take 2), digitsToNat ((v.drop 8).take 2),
      digitsToNat ((v.drop 10).take 2), digitsToNat ((v.drop 12).take 2), 0⟩ = v := by
  have hseg : ∀ (s : List Char) (k : Nat), s.length = k → (∀ c ∈ s, c.isDigit = true) →
      padN k (digitsToNat s) = s := by
    intro s k hk hd
    rw [← hk]
    exact padN_digitsToNat s hd
  unfold strftime14
  rw [hseg (v.take 4) 4 (by simp [List.length_take, h])
        (fun c hc => hdig c (List.take_subset _ _ hc)),
      hseg ((v.drop 4).take 2) 2 (by simp [List.length_take, List.length_drop, h])
        (fun c hc => hdig c (List.drop_subset _ _ (List.take_subset _ _ hc))),
      hseg ((v.drop 6).take 2) 2 (by simp [List.length_take, List.length_drop, h])
        (fun c hc => hdig c (List.drop_subset _ _ (List.take_subset _ _ hc))),
      hseg ((v.drop 8).take 2) 2 (by simp [List.length_take, List.length_drop, h])
        (fun c hc => hdig c (List.drop_subset _ _ (List.take_subset _ _ hc))),
      hseg ((v.drop 10).take 2) 2 (by simp [List.length_take, List.length_drop, h])
        (fun c hc => hdig c (List.drop_subset _ _ (List.take_subset _ _ hc))),
      hseg ((v.drop 12).take 2) 2 (by simp [List.length_take, List.length_drop, h])
        (fun c hc => hdig c (List.drop_subset _ _ (List.take_subset _ _ hc)))]
  exact slice_concat14 v h

theorem strptime14_ok_inversion (s : List Char) (dt : DateTime)
    (hdig : ∀ c ∈ s, c.isDigit = true) (h : strptime14 s = .ok dt) :
    dt = ⟨digitsToNat (s.take 4), digitsToNat ((s.drop 4).take 2),
          digitsToNat ((s.drop 6).take 2), digitsToNat ((s.drop 8).take 2),
          digitsToNat ((s.drop 10).take 2), digitsToNat ((s.drop 12).take 2), 0⟩ ∧
    ValidDT dt = true := by
  have hy9999 : digitsToNat (s.take 4) ≤ 9999 := by
    have hd := fun c hc => hdig c (List.take_subset 4 s hc)
    have hlt := digitsToNat_lt (s.take 4) hd
    have hl : (s.take 4).length ≤ 4 := by
      simp only [List.length_take]
      omega
    have hp : (10 : Nat) ^ (s.take 4).length ≤ 10 ^ 4 :=
      Nat.pow_le_pow_right (by norm_num) hl
    have : (10 : Nat) ^ 4 = 10000 := by norm_num
    omega
  simp only [strptime14] at h
  split at h
  next hcond =>
    obtain ⟨h1, ⟨h2, h3⟩, ⟨h4, h5⟩, h6, h7, h8⟩ := hcond
    injection h with h
    refine ⟨h.symm, ?_⟩
    rw [← h]
    rw [ValidDT_iff]
    exact ⟨h1, hy9999, h2, h3, h4, h5, h6, h7, h8, by simp⟩
  next => exact absurd h (by simp)

theorem decode_inversion (v : List Char) (dt : DateTime)
    (hdig : ∀ c ∈ v, c.isDigit = true)
    (h : bigint_hr_to_datetime (some v) = .ok (some dt)) :
    (v.length = 14 ∧ strptime14 v = .ok dt) ∨
    (v.length = 17 ∧ ∃ base, strptime14 (v.take 14) = .ok base ∧
      dt = { base with microsecond := digitsToNat (v.drop 14) * 1000 }) := by
  have hstrip : pyStrip v = v := pyStrip_of_digits v hdig
  simp only [bigint_hr_to_datetime, hstrip] at h
  split at h
  · simp at h
  · split at h
    · exact absurd h (by simp)
    · split at h
      next hlen =>
        left
        refine ⟨hlen, ?_⟩
        cases hsp : strptime14 v with
        | ok d =>
          rw [hsp] at h
          simp only [Except.map, Except.ok.injEq, Option.some.injEq] at h
          rw [h]
        | error e =>
          rw [hsp] at h
          simp [Except.map] at h
      next hlen =>
        split at h
        next hlen17 =>
          right
          refine ⟨hlen17, ?_⟩
          cases hsp : strptime14 (v.take 14) with
          | ok base =>
            rw [hsp] at h
            simp only [Except.map, Except.ok.injEq, Option.some.injEq] at h
            exact ⟨base, rfl, h.symm⟩
          | error e =>
            rw [hsp] at h
            simp [Except.map] at h
        next => exact absurd h (by simp)

theorem natDigits_digitsToNat17 (l : List Char) (hdig : ∀ c ∈ l, c.isDigit = true)
    (hlen : l.length = 17) (hlead : 1000 ≤ digitsToNat (l.take 4)) :
    natDigits (digitsToNat l) = l := by
  cases l with
  | nil => simp at hlen
  | cons c rest =>
    have hrestlen : rest.length = 16 := by simpa using hlen
    have htake : (c :: rest).take 4 = c :: rest.take 3 := by
      simp [List.take_succ_cons]
    have h3len : (rest.take 3).length = 3 := by
      simp only [List.length_take]
      omega
    have h3dig : ∀ x ∈ rest.take 3, x.isDigit = true := by
      intro x hx
      exact hdig x (List.mem_cons_of_mem c (List.take_subset 3 rest hx))
    have hlt3 : digitsToNat (rest.take 3) < 10 ^ 3 := by
      have := digitsToNat_lt (rest.take 3) h3dig
      rwa [h3len] at this
    have hcge : 1 ≤ c.toNat - 48 := by
      rw [htake, digitsToNat_cons, h3len] at hlead
      have e3 : (10 : Nat) ^ 3 = 1000 := by norm_num
      rw [e3] at hlead hlt3
      by_contra hlt
      push_neg at hlt
      omega
    have hge : 10 ^ 16 ≤ digitsToNat (c :: rest) := by
      rw [digitsToNat_cons, hrestlen]
      have := Nat.mul_le_mul_right (10 ^ 16) hcge
      omega
    have hltb : digitsToNat (c :: rest) < 10 ^ 17 := by
      have := digitsToNat_lt (c :: rest) hdig
      rwa [hlen] at this
    have hinv : padN 17 (digitsToNat (c :: rest)) = c :: rest := by
      have hp := padN_digitsToNat (c :: rest) hdig
      rw [hlen] at hp
      exact hp
    have hltb17 : digitsToNat (c :: rest) < 10 ^ (16 + 1) := by
      have e : (10 : Nat) ^ (16 + 1) = 10 ^ 17 := by norm_num
      rw [e]
      exact hltb
    rw [natDigits_eq_padN 16 _ hge hltb17]
    exact hinv

theorem roundtrip_part1 (v : List Char) (dt : DateTime)
    (hdig : ∀ c ∈ v, c.isDigit = true)
    (hdec : bigint_hr_to_datetime (some v) = .ok (some dt)) (hy : 1000 ≤ dt.year) :
    (datetime_to_bigint_hr (some dt)).map natDigits = some (canonical17 v) := by
  rcases decode_inversion v dt hdig hdec with ⟨hlen, hsp⟩ | ⟨hlen, base, hsp, hdt⟩
  · obtain ⟨hfields, hvalid⟩ := strptime14_ok_inversion v dt hdig hsp
    have hms0 : dt.microsecond = 0 := by rw [hfields]
    have hpy : pyRoundMs dt.microsecond = 0 := by
      rw [hms0]
      decide
    have henc : encodeDT dt = digitsToNat (strftime14 dt ++ padN 3 0) := by
      simp only [encodeDT, hpy]
      norm_num
    have hstr : strftime14 dt = v := by
      rw [hfields]
      exact strftime14_fields v hdig hlen
    have hcan : canonical17 v = v ++ "000".toList := by
      simp [canonical17, hlen]
    have h17 : (v ++ "000".toList).length = 17 := by
      simp [hlen]
    have hdigs : ∀ c ∈ v ++ "000".toList, c.isDigit = true := by
      intro c hc
      rcases List.mem_append.mp hc with hc | hc
      · exact hdig c hc
      · have hc0 : c = '0' := by simpa using hc
        rw [hc0]
        decide
    have hlead : 1000 ≤ digitsToNat ((v ++ "000".toList).take 4) := by
      rw [List.take_append_of_le_length (by omega)]
      have hyv : dt.year = digitsToNat (v.take 4) := by rw [hfields]
      omega
    have hkey : natDigits (encodeDT dt) = canonical17 v := by
      rw [henc, hstr]
      have hp3 : padN 3 0 = "000".toList := by decide
      rw [hp3, hcan]
      exact natDigits_digitsToNat17 _ hdigs h17 hlead
    show some (natDigits (encodeDT dt)) = some (canonical17 v)
    rw [hkey]
  · obtain ⟨hbase, hbvalid⟩ := strptime14_ok_inversion (v.take 14) base
      (fun c hc => hdig c (List.take_subset _ _ hc)) hsp
    have hdlen : (v.drop 14).length = 3 := by simp [List.length_drop, hlen]
    have hdd : ∀ c ∈ v.drop 14, c.isDigit = true :=
      fun c hc => hdig c (List.drop_subset _ _ hc)
    have hmlt : digitsToNat (v.drop 14) < 1000 := by
      have hx := digitsToNat_lt (v.drop 14) hdd
      rw [hdlen] at hx
      have e : (10 : Nat) ^ 3 = 1000 := by norm_num
      rwa [e] at hx
    have hmicro : dt.microsecond = digitsToNat (v.drop 14) * 1000 := by rw [hdt]
    have hdiv : digitsToNat (v.drop 14) * 1000 / 1000 = digitsToNat (v.drop 14) := by omega
    have hmod : digitsToNat (v.drop 14) * 1000 % 1000 = 0 := by omega
    have hpy : pyRoundMs dt.microsecond = digitsToNat (v.drop 14) := by
      rw [hmicro]
      simp only [pyRoundMs]
      rw [hmod, hdiv]
      norm_num
    have henc : encodeDT dt =
        digitsToNat (strftime14 dt ++ padN 3 (digitsToNat (v.drop 14))) := by
      simp only [encodeDT, hpy]
      rw [if_neg (by omega : ¬(digitsToNat (v.drop 14) = 1000)),
          if_neg (by omega : ¬(digitsToNat (v.drop 14) = 1000))]
    have hlen14 : (v.take 14).length = 14 := by
      simp only [List.length_take]
      omega
    have hstr : strftime14 dt = v.take 14 := by
      rw [hdt, strftime14_set_micro, hbase]
      exact strftime14_fields (v.take 14)
        (fun c hc => hdig c (List.take_subset _ _ hc)) hlen14
    have hp3 : padN 3 (digitsToNat (v.drop 14)) = v.drop 14 := by
      rw [← hdlen]
      exact padN_digitsToNat _ hdd
    have hcan : canonical17 v = v := by simp [canonical17, hlen]
    have hlead : 1000 ≤ digitsToNat (v.take 4) := by
      have ht : (v.take 14).take 4 = v.take 4 := by
        rw [List.take_take]
        norm_num
      have hyv : dt.year = digitsToNat (v.take 4) := by
        rw [hdt]
        show base.year = _
        rw [hbase]
        show digitsToNat ((v.take 14).take 4) = _
        rw [ht]
      omega
    have hkey : natDigits (encodeDT dt) = canonical17 v := by
      rw [henc, hstr, hp3, List.take_append_drop, hcan]
      exact natDigits_digitsToNat17 v hdig hlen hlead
    show some (natDigits (encodeDT dt)) = some (canonical17 v)
    rw [hkey]

theorem msFinal_exact (micro : Nat) (hms : micro ≤ 999999) (h0 : micro % 1000 = 0) :
    msFinal micro = micro / 1000 := by
  simp only [msFinal, pyRoundMs]
  repeat' split
  all_goals omega

theorem strptime14_padN14 (t : DateTime) (h : ValidDT t = true) :
    strptime14 (padN 14 (dateNum t)) =
      .ok ⟨t.year, t.month, t.day, t.hour, t.minute, t.second, 0⟩ := by
  obtain ⟨hy1, hy2, hm1, hm2, hd1, hd2, hhr, hmin, hsec, hms⟩ := (ValidDT_iff t).mp h
  have hd31 : t.day ≤ 31 := le_trans hd2 (daysInMonth_le_31 _ _)
  have hNexp : dateNum t = t.year * 10000000000 + t.month * 100000000 + t.day * 1000000 +
      t.hour * 10000 + t.minute * 100 + t.second := rfl
  have p10 : (10 : Nat) ^ 10 = 10000000000 := by norm_num
  have p8 : (10 : Nat) ^ 8 = 100000000 := by norm_num
  have p6 : (10 : Nat) ^ 6 = 1000000 := by norm_num
  have p4 : (10 : Nat) ^ 4 = 10000 := by norm_num
  have p2 : (10 : Nat) ^ 2 = 100 := by norm_num
  have hpadsplit : ∀ k j : Nat, k + j = 14 →
      padN 14 (dateNum t) = padN k (dateNum t / 10 ^ j) ++ padN j (dateNum t) := by
    intro k j hkj
    rw [← hkj]
    exact padN_add k j _
  have t4 : (padN 14 (dateNum t)).take 4 = padN 4 (dateNum t / 10 ^ 10) := by
    rw [hpadsplit 4 10 rfl, List.take_left' (padN_length 4 _)]
  have d4 : (padN 14 (dateNum t)).drop 4 = padN 10 (dateNum t) := by
    rw [hpadsplit 4 10 rfl, List.drop_left' (padN_length 4 _)]
  have d6 : (padN 14 (dateNum t)).drop 6 = padN 8 (dateNum t) := by
    rw [hpadsplit 6 8 rfl, List.drop_left' (padN_length 6 _)]
  have d8 : (padN 14 (dateNum t)).drop 8 = padN 6 (dateNum t) := by
    rw [hpadsplit 8 6 rfl, List.drop_left' (padN_length 8 _)]
  have d10 : (padN 14 (dateNum t)).drop 10 = padN 4 (dateNum t) := by
    rw [hpadsplit 10 4 rfl, List.drop_left' (padN_length 10 _)]
  have d12 : (padN 14 (dateNum t)).drop 12 = padN 2 (dateNum t) := by
    rw [hpadsplit 12 2 rfl, List.drop_left' (padN_length 12 _)]
  have hinner : ∀ j m : Nat, 2 + j = m →
      (padN m (dateNum t)).take 2 = padN 2 (dateNum t / 10 ^ j) := by
    intro j m hjm
    have e : padN m (dateNum t) = padN 2 (dateNum t / 10 ^ j) ++ padN j (dateNum t) := by
      rw [← hjm]
      exact padN_add 2 j _
    rw [e, List.take_left' (padN_length 2 _)]
  have t2_10 : (padN 10 (dateNum t)).take 2 = padN 2 (dateNum t / 10 ^ 8) := hinner 8 10 rfl
  have t2_8 : (padN 8 (dateNum t)).take 2 = padN 2 (dateNum t / 10 ^ 6) := hinner 6 8 rfl
  have t2_6 : (padN 6 (dateNum t)).take 2 = padN 2 (dateNum t / 10 ^ 4) := hinner 4 6 rfl
  have t2_4 : (padN 4 (dateNum t)).take 2 = padN 2 (dateNum t / 10 ^ 2) := hinner 2 4 rfl
  have t2_2 : (padN 2 (dateNum t)).take 2 = padN 2 (dateNum t) := by
    apply List.take_of_length_le
    rw [padN_length]
  have vy : digitsToNat (padN 4 (dateNum t / 10 ^ 10)) = t.year := by
    rw [digitsToNat_padN, p4, p10]
    omega
  have vmo : digitsToNat (padN 2 (dateNum t / 10 ^ 8)) = t.month := by
    rw [digitsToNat_padN, p2, p8]
    omega
  have vd : digitsToNat (padN 2 (dateNum t / 10 ^ 6)) = t.day := by
    rw [digitsToNat_padN, p2, p6]
    omega
  have vh : digitsToNat (padN 2 (dateNum t / 10 ^ 4)) = t.hour := by
    rw [digitsToNat_padN, p2, p4]
    omega
  have vmi : digitsToNat (padN 2 (dateNum t / 10 ^ 2)) = t.minute := by
    rw [digitsToNat_padN, p2]
    omega
  have vs : digitsToNat (padN 2 (dateNum t)) = t.second := by
    rw [digitsToNat_padN, p2]
    omega
  simp only [strptime14]
  rw [t4, d4, t2_10, d6, t2_8, d8, t2_6, d10, t2_4, d12, t2_2]
  rw [vy, vmo, vd, vh, vmi, vs]
  rw [if_pos ⟨hy1, ⟨hm1, hm2⟩, ⟨hd1, hd2⟩, hhr, hmin, hsec⟩]

theorem decode_padN17 (t : DateTime) (h : ValidDT t = true) (hm0 : t.microsecond % 1000 = 0)
    (hy : 1000 ≤ t.year) (hne : t ≠ epochDT) :
    bigint_hr_to_datetime (some (padN 17 (dateNum t * 1000 + t.microsecond / 1000))) =
      .ok (some t) := by
  obtain ⟨hy1, hy2, hm1, hm2, hd1, hd2, hhr, hmin, hsec, hms⟩ := (ValidDT_iff t).mp h
  have hd31 : t.day ≤ 31 := le_trans hd2 (daysInMonth_le_31 _ _)
  have hNexp : dateNum t = t.year * 10000000000 + t.month * 100000000 + t.day * 1000000 +
      t.hour * 10000 + t.minute * 100 + t.second := rfl
  have hq999 : t.microsecond / 1000 ≤ 999 := by omega
  set n := dateNum t * 1000 + t.microsecond / 1000 with hn
  have hsplit : padN 17 n = padN 14 (n / 10 ^ 3) ++ padN 3 n := by
    have hx := padN_add 14 3 n
    norm_num at hx
    exact hx
  have e3 : (10 : Nat) ^ 3 = 1000 := by norm_num
  have hdiv : n / 10 ^ 3 = dateNum t := by
    rw [e3, hn]
    omega
  have hdigs := padN_digits 17 n
  have hstrip : pyStrip (padN 17 n) = padN 17 n := pyStrip_of_digits _ hdigs
  have hlen : (padN 17 n).length = 17 := padN_length _ _
  have hie : (padN 17 n).isEmpty = false := by
    cases he : padN 17 n with
    | nil => rw [he] at hlen; simp at hlen
    | cons a b => rfl
  have hlt17 : n < 10 ^ 17 := by
    have e17 : (10 : Nat) ^ 17 = 100000000000000000 := by norm_num
    rw [e17, hn]
    omega
  have hnesent : padN 17 n ≠ "19700101000000000".toList := by
    intro hcontra
    have hv := congrArg digitsToNat hcontra
    rw [digitsToNat_padN, Nat.mod_eq_of_lt hlt17] at hv
    have hval : digitsToNat ("19700101000000000".toList) = 19700101000000000 := by decide
    rw [hval] at hv
    have hfields : t.year = 1970 ∧ t.month = 1 ∧ t.day = 1 ∧ t.hour = 0 ∧ t.minute = 0 ∧
        t.second = 0 ∧ t.microsecond = 0 := by omega
    obtain ⟨f1, f2, f3, f4, f5, f6, f7⟩ := hfields
    refine hne ?_
    cases t with
    | mk a b c d e f g =>
      simp only [epochDT, DateTime.mk.injEq]
      exact ⟨f1, f2, f3, f4, f5, f6, f7⟩
  have hne0 : padN 17 n ≠ "0".toList := by
    intro hcontra
    have := congrArg List.length hcontra
    rw [hlen] at this
    simp at this
  have hnsent : _is_epoch_sentinel (some (padN 17 n)) = false := by
    simp only [_is_epoch_sentinel, hstrip, Bool.or_eq_false_iff, beq_eq_false_iff_ne, ne_eq]
    exact ⟨hne0, hnesent⟩
  have hall : (padN 17 n).all Char.isDigit = true := List.all_eq_true.mpr hdigs
  have htake : (padN 17 n).take 14 = padN 14 (dateNum t) := by
    rw [hsplit, List.take_left' (padN_length 14 _), hdiv]
  have hdrop : (padN 17 n).drop 14 = padN 3 n := by
    rw [hsplit, List.drop_left' (padN_length 14 _)]
  have hmsv : digitsToNat (padN 3 n) * 1000 = t.microsecond := by
    rw [digitsToNat_padN, e3, hn]
    omega
  simp only [bigint_hr_to_datetime, hstrip]
  rw [if_neg (show ¬(((padN 17 n).isEmpty || _is_epoch_sentinel (some (padN 17 n))) = true) by
    rw [hie, hnsent]; decide)]
  rw [if_neg (show ¬((!((padN 17 n).all Char.isDigit)) = true) by rw [hall]; decide)]
  rw [if_neg (show ¬((padN 17 n).length = 14) by rw [hlen]; norm_num)]
  rw [if_pos (show (padN 17 n).length = 17 from hlen)]
  rw [htake, strptime14_padN14 t h]
  simp only [Except.map]
  rw [hdrop, hmsv]

theorem roundtrip_part2 (t : DateTime) (h : ValidDT t = true)
    (hm0 : t.microsecond % 1000 = 0) (hy : 1000 ≤ t.year) (hne : t ≠ epochDT) :
    bigint_hr_to_datetime ((datetime_to_bigint_hr (some t)).map natDigits) = .ok (some t) := by
  obtain ⟨hy1, hy2, hm1, hm2, hd1, hd2, hhr, hmin, hsec, hms⟩ := (ValidDT_iff t).mp h
  have hd31 : t.day ≤ 31 := le_trans hd2 (daysInMonth_le_31 _ _)
  have hNexp : dateNum t = t.year * 10000000000 + t.month * 100000000 + t.day * 1000000 +
      t.hour * 10000 + t.minute * 100 + t.second := rfl
  have hmsf : msFinal t.microsecond = t.microsecond / 1000 := msFinal_exact _ hms hm0
  have henc : encodeDT t = dateNum t * 1000 + t.microsecond / 1000 := by
    rw [encodeDT_eq t h, hmsf]
  have hge : 10 ^ 16 ≤ dateNum t * 1000 + t.microsecond / 1000 := by
    have e16 : (10 : Nat) ^ 16 = 10000000000000000 := by norm_num
    rw [e16]
    omega
  have hlt : dateNum t * 1000 + t.microsecond / 1000 < 10 ^ (16 + 1) := by
    have e17 : (10 : Nat) ^ (16 + 1) = 100000000000000000 := by norm_num
    rw [e17]
    omega
  have hnat : natDigits (dateNum t * 1000 + t.microsecond / 1000) =
      padN 17 (dateNum t * 1000 + t.microsecond / 1000) := by
    have hx := natDigits_eq_padN 16 _ hge hlt
    norm_num at hx
    exact hx
  show bigint_hr_to_datetime (some (natDigits (encodeDT t))) = .ok (some t)
  rw [henc, hnat]
  exact decode_padN17 t h hm0 hy hne

/-- C1 amended: away from the epoch sentinel and restricted to years at least
1000 the round-trip law holds — a digit string `v` accepted by decode
re-encodes to the integer whose decimal digits are the 17-digit canonical form
of `v` (`v` itself for 17 digits, `v` with `000` appended for 14); and a valid
UTC instant with whole-millisecond sub-seconds, year at least 1000 and
different from the exact epoch instant, encodes and decodes back to the
identical instant. -/
theorem C1_roundtrip_amended :
    (∀ (v : List Char) (dt : DateTime), (∀ c ∈ v, c.isDigit = true) →
      bigint_hr_to_datetime (some v) = .ok (some dt) → 1000 ≤ dt.year →
      (datetime_to_bigint_hr (some dt)).map natDigits = some (canonical17 v)) ∧
    (∀ t : DateTime, ValidDT t = true → t.microsecond % 1000 = 0 → 1000 ≤ t.year →
      t ≠ epochDT →
      bigint_hr_to_datetime ((datetime_to_bigint_hr (some t)).map natDigits) = .ok (some t)) :=
  ⟨roundtrip_part1, roundtrip_part2⟩

/-- Witness for C1 amended at the concrete instant 2023-02-09T08:43:34.000Z and
its 17-digit encoding. -/
theorem C1_roundtrip_amended_witness :
    (datetime_to_bigint_hr (some ⟨2023, 2, 9, 8, 43, 34, 0⟩)).map natDigits =
      some (canonical17 ("20230209084334000".toList)) ∧
    bigint_hr_to_datetime ((datetime_to_bigint_hr (some ⟨2023, 2, 9, 8, 43, 34, 0⟩)).map natDigits) =
      .ok (some ⟨2023, 2, 9, 8, 43, 34, 0⟩) :=
  ⟨C1_roundtrip_amended.1 ("20230209084334000".toList) ⟨2023, 2, 9, 8, 43, 34, 0⟩
      (by decide) (by decide) (by decide),
    C1_roundtrip_amended.2 ⟨2023, 2, 9, 8, 43, 34, 0⟩ (by decide) (by decide) (by decide)
      (by decide)⟩

end TradeHist
